import Mathlib

/-!
# Referrer discovery over registry hosts (`remotes/docker/discoverer.go`)

A shallow embedding of `dockerDiscoverer.Discover` and `dockerDiscoverer.discover`
together with the parts of Go's `net/url` they call, and the properties of the
multi-host discovery protocol proved about them.

Conventions of the embedding:

* a Go `string` is its sequence of bytes (`GoString`);
* a Go slice is `Option (List α)`, `none` being the `nil` slice;
* a Go `error` result is `Option GoError`, `none` being `nil`;
* the collaborators of the discoverer that live outside `discoverer.go`
  (scope construction, request construction, namespace annotation, the HTTP
  transport and the JSON decoders) are the fields of `Collaborators`;
* `Decode` is what the decoder of the result is in the source, the stream
  decoder of `encoding/json`: its scanner and `readValue` are embedded, the
  unmarshalling of the value read is a parameter;
* within one call the transport answers a request as a function of the
  context and the request;
* every call of a collaborator that the properties talk about is recorded in
  the `events` of a `Run`, in call order.
-/

namespace Docker

/-! ## Go strings -/

/-- One byte of a Go string. -/
abbrev Byte := Fin 256

/-- A Go string: a sequence of bytes. -/
abbrev GoString := List Byte

/-- The Go string written by a literal: its UTF-8 bytes. -/
def str (s : String) : GoString :=
  (s.toList.flatMap String.utf8EncodeChar).map (fun b => b.val)

/-- The byte of an ASCII character literal. -/
def B (c : Char) : Byte := Fin.ofNat c.toNat

/-- A Go slice; `none` is the `nil` slice. -/
abbrev Slice (α : Type) := Option (List α)

/-- Go's builtin `len` on a slice. -/
def len {α : Type} : Slice α → Nat
  | none => 0
  | some xs => xs.length

/-- Go's builtin `make([]T, n)`: a non-nil slice of `n` zero values. -/
def make {α : Type} [Inhabited α] (n : Nat) : Slice α :=
  some (List.replicate n default)

/-! ## `net/url`: query escaping -/

/-- The table `upperhex` of `net/url`. -/
def upperhex : GoString := str "0123456789ABCDEF"

/-- Function `shouldEscape(c, encodeQueryComponent)` of `net/url`: unreserved
characters are kept, everything else (the reserved characters included) is
escaped. -/
def shouldEscape (c : Byte) : Bool :=
  if (B 'a' ≤ c ∧ c ≤ B 'z') ∨ (B 'A' ≤ c ∧ c ≤ B 'Z') ∨ (B '0' ≤ c ∧ c ≤ B '9') then
    false
  else if c = B '-' ∨ c = B '_' ∨ c = B '.' ∨ c = B '~' then
    false
  else
    true

/-- The second loop of `escape(s, encodeQueryComponent)`: what one input byte
contributes to the output buffer. -/
def escapeByte (c : Byte) : GoString :=
  if c = B ' ' then [B '+']
  else if shouldEscape c then
    [B '%', upperhex.getD (c.val >>> 4) 0, upperhex.getD (c.val &&& 15) 0]
  else [c]

/-- Function `escape(s, encodeQueryComponent)` of `net/url`: a counting pass,
the early return of `s` itself when nothing needs escaping, then the filling
pass. -/
def escape (s : GoString) : GoString :=
  let spaceCount := (s.filter (fun c => shouldEscape c && decide (c = B ' '))).length
  let hexCount := (s.filter (fun c => shouldEscape c && !decide (c = B ' '))).length
  if spaceCount = 0 ∧ hexCount = 0 then s
  else s.flatMap escapeByte

/-- Function `url.QueryEscape`. -/
def QueryEscape (s : GoString) : GoString := escape s

/-- Type `url.Values`: a map from keys to value lists, kept as an association
list. -/
abbrev Values := List (GoString × List GoString)

/-- Method `Values.Set`: replace the values of `key` by the single `value`. -/
def Values.Set (v : Values) (key value : GoString) : Values :=
  (key, [value]) :: v.filter (fun kv => kv.1 ≠ key)

/-- The inner loop of `Values.Encode` for one key: `key=value` items, joined
to what the buffer already holds with `&`. -/
def encodeKey (keyEscaped : GoString) : GoString → List GoString → GoString
  | buf, [] => buf
  | buf, v :: vs =>
    let buf := if buf.length > 0 then buf ++ [B '&'] else buf
    encodeKey keyEscaped (buf ++ keyEscaped ++ [B '='] ++ QueryEscape v) vs

/-- Method `Values.Encode`: keys in sorted order, every key and value
query-escaped. -/
def Values.Encode (v : Values) : GoString :=
  let keys := (v.map Prod.fst).insertionSort (fun a b => a ≤ b)
  keys.foldl
    (fun buf k =>
      let vs := ((v.find? (fun kv => kv.1 = k)).map Prod.snd).getD []
      encodeKey (QueryEscape k) buf vs)
    []

/-! ## Errors -/

/-- The error values that occur in a discovery call. -/
inductive GoError where
  /-- Value `errdefs.ErrNotFound`. -/
  | ErrNotFound
  /-- Value `context.Canceled`. -/
  | Canceled
  /-- Value `context.DeadlineExceeded`. -/
  | DeadlineExceeded
  /-- Result of `errors.Errorf`, with the formatted message. -/
  | Errorf (msg : GoString)
  /-- Result of `errors.Wrap(cause, msg)`. -/
  | Wrap (cause : GoError) (msg : GoString)
  /-- Any other error value a collaborator produces, with its message. -/
  | Other (msg : GoString)
  deriving DecidableEq, Repr

/-- Method `Error()`: the message of an error value. -/
def GoError.Error : GoError → GoString
  | .ErrNotFound => str "not found"
  | .Canceled => str "context canceled"
  | .DeadlineExceeded => str "context deadline exceeded"
  | .Errorf msg => msg
  | .Wrap cause msg => msg ++ str ": " ++ cause.Error
  | .Other msg => msg

/-- Type `Errors` of the registry error list: `registryErr.Len()` is its
length. -/
abbrev Errors := List GoError

/-! ## Data model -/

/-- Modelled from the spec: the operation kinds a host may support; type
`HostCapabilities` is declared elsewhere in the package. -/
inductive HostCapability where
  | Pull
  | Resolve
  | Push
  | Discover
  deriving DecidableEq, Repr

/-- The capability `Discover` asks for. -/
def HostCapabilityDiscover : HostCapability := HostCapability.Discover

/-- Modelled from the spec: a registry host, `\x7b baseAddress, capabilities \x7d`;
type `RegistryHost` is declared elsewhere in the package. -/
structure RegistryHost where
  Host : GoString
  Scheme : GoString
  Path : GoString
  Capabilities : List HostCapability
  deriving DecidableEq, Repr

/-- Modelled from the spec: the subject reference, whose locator starts with
the registry hostname; type `reference.Spec` is declared in package
`reference`. -/
structure Spec where
  Locator : GoString
  Object : GoString
  deriving DecidableEq, Repr

/-- Modelled from the spec: the registry hostname portion of the subject
reference (the locator up to its first `/`). -/
def Spec.Hostname (r : Spec) : GoString :=
  r.Locator.takeWhile (fun c => c ≠ B '/')

/-- Modelled from the spec: the fields of `dockerBase` that `Discover` reads;
the type is declared elsewhere in the package. -/
structure dockerBase where
  refspec : Spec
  repository : GoString
  hosts : List RegistryHost
  deriving DecidableEq, Repr

/-- Modelled from the spec: `DiscoveryRequest`, the per-host request; type
`request` is declared elsewhere in the package. -/
structure request where
  method : GoString
  path : GoString
  host : RegistryHost
  deriving DecidableEq, Repr

/-- Modelled from the spec: the content descriptor of the subject; only its
digest is read. -/
structure Descriptor where
  MediaType : GoString
  Digest : GoString
  Size : Int
  deriving DecidableEq, Repr, Inhabited

/-- Struct `artifactspec.Artifact` (`specs-go/v2/artifact.go`). -/
structure Artifact where
  SchemaVersion : Int
  MediaType : GoString
  ArtifactType : GoString
  Blobs : Slice Descriptor
  SubjectManifest : Descriptor
  Annotations : Option (List (GoString × GoString))
  deriving DecidableEq, Repr, Inhabited

/-- Modelled from the spec: `DiscoveredArtifact`, `\x7b digest, artifactDescriptor \x7d`;
type `remotes.DiscoveredArtifact` is declared in package `remotes`. -/
structure DiscoveredArtifact where
  Digest : GoString
  Artifact : Artifact
  deriving DecidableEq, Repr, Inhabited

/-- One element of the anonymous `References` slice decoded by `discover`. -/
structure reference where
  Digest : GoString
  Manifest : Artifact
  deriving DecidableEq, Repr, Inhabited

/-- The anonymous struct `result` decoded by `discover`. -/
structure result where
  References : Slice reference
  deriving DecidableEq, Repr, Inhabited

/-- The part of an `http.Response` read by `discover`. -/
structure Response where
  StatusCode : Nat
  Status : GoString
  Body : GoString
  deriving DecidableEq, Repr

/-- Constant `http.StatusOK`. -/
def StatusOK : Nat := 200

/-- Constant `http.MethodGet`. -/
def MethodGet : GoString := str "GET"

/-- A `context.Context`, as the list of values attached to it. -/
abbrev Context := List (GoString × GoString)

/-- The collaborators of the discoverer declared outside `discoverer.go`. -/
structure Collaborators where
  /-- Call `log.WithLogger(ctx, log.G(ctx).WithField("digest", d))`. -/
  WithLogger : Context → GoString → Context
  /-- Function `ContextWithRepositoryScope(ctx, refspec, push)`. -/
  ContextWithRepositoryScope : Context → Spec → Bool → Except GoError Context
  /-- Method `r.request(host, method, ps...)`. -/
  newRequest : dockerBase → RegistryHost → GoString → List GoString → request
  /-- Method `req.addNamespace(ns)`: the annotated request, or the failure. -/
  addNamespace : request → GoString → Except GoError request
  /-- Method `req.doWithRetries(ctx, nil)`: the transport. -/
  doWithRetries : Context → request → Except GoError Response
  /-- Method `req.String()`. -/
  requestString : request → GoString
  /-- Call `json.NewDecoder(body).Decode(&registryErr)`: the value left in
  `registryErr` and the returned error. -/
  decodeErrors : GoString → Errors × Option GoError
  /-- Method `registryErr.Error()`: the joined server error messages. -/
  errorsError : Errors → GoString
  /-- Call `json.NewDecoder(body).Decode(&result)`: the value left in
  `result` and the returned error. -/
  decodeResult : GoString → result × Option GoError

/-- Modelled from the spec: `filterHosts`, the ordered subset of the known
hosts that declare the capability, in the original preference order; the
method is declared elsewhere in the package. -/
def filterHosts (r : dockerBase) (caps : HostCapability) : List RegistryHost :=
  r.hosts.filter (fun host => host.Capabilities.contains caps)

/-! ## `encoding/json`: the scanner and `Decoder.Decode` -/

/-- The byte `"`. -/
def quoteByte : Byte := 34

/-- The byte `\`. -/
def backslash : Byte := 92

/-- The byte of the apostrophe. -/
def apostrophe : Byte := 39

/-- The table `lowerhex` of `strconv`. -/
def lowerhex : GoString := str "0123456789abcdef"

/-- Function `strconv.IsPrint` on the runes up to U+00FF. -/
def isPrint (c : Byte) : Bool :=
  if 32 ≤ c.val ∧ c.val ≤ 126 then true
  else if 161 ≤ c.val ∧ c.val ≤ 255 then c.val ≠ 173
  else false

/-- Function `quoteChar` of `encoding/json`: the byte as it appears in the
message of a syntax error. It is `strconv.Quote(string(c))` between
apostrophes, apart from the apostrophe and the double quote. -/
def quoteChar (c : Byte) : GoString :=
  if c = apostrophe then [apostrophe, backslash, apostrophe, apostrophe]
  else if c = quoteByte then [apostrophe, quoteByte, apostrophe]
  else if c = backslash then [apostrophe, backslash, backslash, apostrophe]
  else if isPrint c then
    if c.val < 128 then [apostrophe, c, apostrophe]
    else [apostrophe, Fin.ofNat (192 + c.val / 64), Fin.ofNat (128 + c.val % 64), apostrophe]
  else if c.val = 7 then [apostrophe, backslash, B 'a', apostrophe]
  else if c.val = 8 then [apostrophe, backslash, B 'b', apostrophe]
  else if c.val = 12 then [apostrophe, backslash, B 'f', apostrophe]
  else if c.val = 10 then [apostrophe, backslash, B 'n', apostrophe]
  else if c.val = 13 then [apostrophe, backslash, B 'r', apostrophe]
  else if c.val = 9 then [apostrophe, backslash, B 't', apostrophe]
  else if c.val = 11 then [apostrophe, backslash, B 'v', apostrophe]
  else if c.val < 32 ∨ c.val = 127 then
    [apostrophe, backslash, B 'x', lowerhex.getD (c.val / 16) 0, lowerhex.getD (c.val % 16) 0,
      apostrophe]
  else
    [apostrophe, backslash, B 'u', B '0', B '0', lowerhex.getD (c.val / 16) 0,
      lowerhex.getD (c.val % 16) 0, apostrophe]

/-- The state functions of `scanner.go`, the values of the field `step`. -/
inductive StepFn where
  | stateBeginValueOrEmpty
  | stateBeginValue
  | stateBeginStringOrEmpty
  | stateBeginString
  | stateEndValue
  | stateEndTop
  | stateInString
  | stateInStringEsc
  | stateInStringEscU
  | stateInStringEscU1
  | stateInStringEscU12
  | stateInStringEscU123
  | stateNeg
  | state1
  | state0
  | stateDot
  | stateDot0
  | stateE
  | stateESign
  | stateE0
  | stateT
  | stateTr
  | stateTru
  | stateF
  | stateFa
  | stateFal
  | stateFals
  | stateN
  | stateNu
  | stateNul
  | stateError
  deriving DecidableEq, Repr

/-- The result codes of a scanner step. -/
inductive ScanOp where
  | scanContinue
  | scanBeginLiteral
  | scanBeginObject
  | scanObjectKey
  | scanObjectValue
  | scanEndObject
  | scanBeginArray
  | scanArrayValue
  | scanEndArray
  | scanSkipSpace
  | scanEnd
  | scanError
  deriving DecidableEq, Repr

/-- The entries of the scanner's parse stack. -/
inductive ParseState where
  | parseObjectKey
  | parseObjectValue
  | parseArrayValue
  deriving DecidableEq, Repr

/-- Constant `maxNestingDepth`. -/
def maxNestingDepth : Nat := 10000

/-- Struct `scanner` of `scanner.go`. The parse stack is kept innermost entry
first; the byte count, which only feeds the offset of a syntax error, is left
out, an error value being its message. -/
structure scanner where
  step : StepFn
  endTop : Bool
  parseState : List ParseState
  err : Option GoError
  deriving DecidableEq, Repr

/-- Method `scanner.reset`. -/
def scanner.reset : scanner :=
  { step := .stateBeginValue, endTop := false, parseState := [], err := none }

/-- Method `scanner.error`: record a syntax error and enter `stateError`. -/
def scanner.error (s : scanner) (c : Byte) (context : GoString) : scanner × ScanOp :=
  ({ s with
      step := .stateError,
      err := some (.Other (str "invalid character " ++ quoteChar c ++ str " " ++ context)) },
    .scanError)

/-- Method `scanner.pushParseState`. -/
def scanner.pushParseState (s : scanner) (c : Byte) (newParseState : ParseState)
    (successState : ScanOp) : scanner × ScanOp :=
  let s := { s with parseState := newParseState :: s.parseState }
  if s.parseState.length ≤ maxNestingDepth then (s, successState)
  else s.error c (str "exceeded max depth")

/-- Method `scanner.popParseState`. -/
def scanner.popParseState (s : scanner) : scanner :=
  let s := { s with parseState := s.parseState.tail }
  if s.parseState.length = 0 then { s with step := .stateEndTop, endTop := true }
  else { s with step := .stateEndValue }

/-- Function `isSpace`. -/
def isSpace (c : Byte) : Bool :=
  c ≤ B ' ' && (c == B ' ' || c.val == 9 || c.val == 13 || c.val == 10)

/-- Function `stateEndTop`: after the top-level value; a byte that is not a
space is recorded as an error, reported on the next call. -/
def stateEndTop (s : scanner) (c : Byte) : scanner × ScanOp :=
  if !isSpace c then ((s.error c (str "after top-level value")).1, .scanEnd)
  else (s, .scanEnd)

/-- Function `stateEndValue`: after a value, such as after a string or a
closing bracket. -/
def stateEndValue (s : scanner) (c : Byte) : scanner × ScanOp :=
  match s.parseState with
  | [] => stateEndTop { s with step := .stateEndTop, endTop := true } c
  | ps :: outer =>
    if isSpace c then ({ s with step := .stateEndValue }, .scanSkipSpace)
    else
      match ps with
      | .parseObjectKey =>
        if c = B ':' then
          ({ s with parseState := .parseObjectValue :: outer, step := .stateBeginValue },
            .scanObjectKey)
        else s.error c (str "after object key")
      | .parseObjectValue =>
        if c = B ',' then
          ({ s with parseState := .parseObjectKey :: outer, step := .stateBeginString },
            .scanObjectValue)
        else if c = B '}' then (s.popParseState, .scanEndObject)
        else s.error c (str "after object key:value pair")
      | .parseArrayValue =>
        if c = B ',' then ({ s with step := .stateBeginValue }, .scanArrayValue)
        else if c = B ']' then (s.popParseState, .scanEndArray)
        else s.error c (str "after array element")

/-- Function `stateBeginValue`: at the beginning of a value. -/
def stateBeginValue (s : scanner) (c : Byte) : scanner × ScanOp :=
  if isSpace c then (s, .scanSkipSpace)
  else if c = B '{' then
    { s with step := .stateBeginStringOrEmpty }.pushParseState c .parseObjectKey .scanBeginObject
  else if c = B '[' then
    { s with step := .stateBeginValueOrEmpty }.pushParseState c .parseArrayValue .scanBeginArray
  else if c = quoteByte then ({ s with step := .stateInString }, .scanBeginLiteral)
  else if c = B '-' then ({ s with step := .stateNeg }, .scanBeginLiteral)
  else if c = B '0' then ({ s with step := .state0 }, .scanBeginLiteral)
  else if c = B 't' then ({ s with step := .stateT }, .scanBeginLiteral)
  else if c = B 'f' then ({ s with step := .stateF }, .scanBeginLiteral)
  else if c = B 'n' then ({ s with step := .stateN }, .scanBeginLiteral)
  else if B '1' ≤ c ∧ c ≤ B '9' then ({ s with step := .state1 }, .scanBeginLiteral)
  else s.error c (str "looking for beginning of value")

/-- Function `stateBeginValueOrEmpty`: after `[`. -/
def stateBeginValueOrEmpty (s : scanner) (c : Byte) : scanner × ScanOp :=
  if isSpace c then (s, .scanSkipSpace)
  else if c = B ']' then stateEndValue s c
  else stateBeginValue s c

/-- Function `stateBeginString`: after `\x7b "key": value,`. -/
def stateBeginString (s : scanner) (c : Byte) : scanner × ScanOp :=
  if isSpace c then (s, .scanSkipSpace)
  else if c = quoteByte then ({ s with step := .stateInString }, .scanBeginLiteral)
  else s.error c (str "looking for beginning of object key string")

/-- Function `stateBeginStringOrEmpty`: after `\x7b`. -/
def stateBeginStringOrEmpty (s : scanner) (c : Byte) : scanner × ScanOp :=
  if isSpace c then (s, .scanSkipSpace)
  else if c = B '}' then
    stateEndValue { s with parseState := .parseObjectValue :: s.parseState.tail } c
  else stateBeginString s c

/-- Function `stateInString`. -/
def stateInString (s : scanner) (c : Byte) : scanner × ScanOp :=
  if c = quoteByte then ({ s with step := .stateEndValue }, .scanContinue)
  else if c = backslash then ({ s with step := .stateInStringEsc }, .scanContinue)
  else if c.val < 32 then s.error c (str "in string literal")
  else (s, .scanContinue)

/-- Function `stateInStringEsc`. -/
def stateInStringEsc (s : scanner) (c : Byte) : scanner × ScanOp :=
  if c = B 'b' ∨ c = B 'f' ∨ c = B 'n' ∨ c = B 'r' ∨ c = B 't' ∨ c = backslash ∨ c = B '/'
      ∨ c = quoteByte then
    ({ s with step := .stateInString }, .scanContinue)
  else if c = B 'u' then ({ s with step := .stateInStringEscU }, .scanContinue)
  else s.error c (str "in string escape code")

/-- The test for a hexadecimal digit of the `stateInStringEscU` functions. -/
def isHexDigit (c : Byte) : Bool :=
  (B '0' ≤ c && c ≤ B '9') || (B 'a' ≤ c && c ≤ B 'f') || (B 'A' ≤ c && c ≤ B 'F')

/-- The functions `stateInStringEscU`, `stateInStringEscU1`,
`stateInStringEscU12` and `stateInStringEscU123`, which differ in the next
state only. -/
def stateInStringEscUn (next : StepFn) (s : scanner) (c : Byte) : scanner × ScanOp :=
  if isHexDigit c then ({ s with step := next }, .scanContinue)
  else s.error c (str "in \\u hexadecimal character escape")

/-- Function `state0`: after `0`. -/
def state0 (s : scanner) (c : Byte) : scanner × ScanOp :=
  if c = B '.' then ({ s with step := .stateDot }, .scanContinue)
  else if c = B 'e' ∨ c = B 'E' then ({ s with step := .stateE }, .scanContinue)
  else stateEndValue s c

/-- Function `state1`: after a non-zero integer. -/
def state1 (s : scanner) (c : Byte) : scanner × ScanOp :=
  if B '0' ≤ c ∧ c ≤ B '9' then ({ s with step := .state1 }, .scanContinue)
  else state0 s c

/-- Function `stateNeg`: after `-`. -/
def stateNeg (s : scanner) (c : Byte) : scanner × ScanOp :=
  if c = B '0' then ({ s with step := .state0 }, .scanContinue)
  else if B '1' ≤ c ∧ c ≤ B '9' then ({ s with step := .state1 }, .scanContinue)
  else s.error c (str "in numeric literal")

/-- Function `stateDot`: after the decimal point. -/
def stateDot (s : scanner) (c : Byte) : scanner × ScanOp :=
  if B '0' ≤ c ∧ c ≤ B '9' then ({ s with step := .stateDot0 }, .scanContinue)
  else s.error c (str "after decimal point in numeric literal")

/-- Function `stateDot0`: after the decimal point and a digit. -/
def stateDot0 (s : scanner) (c : Byte) : scanner × ScanOp :=
  if B '0' ≤ c ∧ c ≤ B '9' then (s, .scanContinue)
  else if c = B 'e' ∨ c = B 'E' then ({ s with step := .stateE }, .scanContinue)
  else stateEndValue s c

/-- Function `stateESign`: after the sign of an exponent. -/
def stateESign (s : scanner) (c : Byte) : scanner × ScanOp :=
  if B '0' ≤ c ∧ c ≤ B '9' then ({ s with step := .stateE0 }, .scanContinue)
  else s.error c (str "in exponent of numeric literal")

/-- Function `stateE`: after `e` or `E`. -/
def stateE (s : scanner) (c : Byte) : scanner × ScanOp :=
  if c = B '+' ∨ c = B '-' then ({ s with step := .stateESign }, .scanContinue)
  else stateESign s c

/-- Function `stateE0`: after a digit of the exponent. -/
def stateE0 (s : scanner) (c : Byte) : scanner × ScanOp :=
  if B '0' ≤ c ∧ c ≤ B '9' then (s, .scanContinue)
  else stateEndValue s c

/-- The functions `stateT` to `stateNul`, inside `true`, `false` and `null`:
the byte `expected` leads to the state `next`, any other byte is an error in
the literal `name`. -/
def stateLiteral (expected : Byte) (next : StepFn) (name : GoString) (s : scanner) (c : Byte) :
    scanner × ScanOp :=
  if c = expected then ({ s with step := next }, .scanContinue)
  else
    s.error c (str "in literal " ++ name ++ str " (expecting " ++ [apostrophe, expected, apostrophe]
      ++ str ")")

/-- The call `s.step(s, c)`: the state function held by the field `step`. -/
def scanner.stepFn (s : scanner) (c : Byte) : scanner × ScanOp :=
  match s.step with
  | .stateBeginValueOrEmpty => stateBeginValueOrEmpty s c
  | .stateBeginValue => stateBeginValue s c
  | .stateBeginStringOrEmpty => stateBeginStringOrEmpty s c
  | .stateBeginString => stateBeginString s c
  | .stateEndValue => stateEndValue s c
  | .stateEndTop => stateEndTop s c
  | .stateInString => stateInString s c
  | .stateInStringEsc => stateInStringEsc s c
  | .stateInStringEscU => stateInStringEscUn .stateInStringEscU1 s c
  | .stateInStringEscU1 => stateInStringEscUn .stateInStringEscU12 s c
  | .stateInStringEscU12 => stateInStringEscUn .stateInStringEscU123 s c
  | .stateInStringEscU123 => stateInStringEscUn .stateInString s c
  | .stateNeg => stateNeg s c
  | .state1 => state1 s c
  | .state0 => state0 s c
  | .stateDot => stateDot s c
  | .stateDot0 => stateDot0 s c
  | .stateE => stateE s c
  | .stateESign => stateESign s c
  | .stateE0 => stateE0 s c
  | .stateT => stateLiteral (B 'r') .stateTr (str "true") s c
  | .stateTr => stateLiteral (B 'u') .stateTru (str "true") s c
  | .stateTru => stateLiteral (B 'e') .stateEndValue (str "true") s c
  | .stateF => stateLiteral (B 'a') .stateFa (str "false") s c
  | .stateFa => stateLiteral (B 'l') .stateFal (str "false") s c
  | .stateFal => stateLiteral (B 's') .stateFals (str "false") s c
  | .stateFals => stateLiteral (B 'e') .stateEndValue (str "false") s c
  | .stateN => stateLiteral (B 'u') .stateNu (str "null") s c
  | .stateNu => stateLiteral (B 'l') .stateNul (str "null") s c
  | .stateNul => stateLiteral (B 'l') .stateEndValue (str "null") s c
  | .stateError => (s, .scanError)

/-- Method `scanner.eof`: the scanner is told that the input has ended. -/
def scanner.eof (s : scanner) : scanner × ScanOp :=
  if s.err ≠ none then (s, .scanError)
  else if s.endTop then (s, .scanEnd)
  else
    let s := (s.stepFn (B ' ')).1
    if s.endTop then (s, .scanEnd)
    else if s.err = none then
      ({ s with err := some (.Other (str "unexpected end of JSON input")) }, .scanError)
    else (s, .scanError)

/-- The loop of `checkValid` over the remaining bytes. -/
def checkValidLoop : scanner → GoString → Option GoError
  | s, [] =>
    match s.eof with
    | (s, .scanError) => s.err
    | _ => none
  | s, c :: data =>
    match s.stepFn c with
    | (s, .scanError) => s.err
    | (s, _) => checkValidLoop s data

/-- Function `json.Valid`: the data is one JSON value, with white space around
it at most. -/
def Valid (data : GoString) : Bool :=
  checkValidLoop scanner.reset data = none

/-- Function `nonSpace`. -/
def nonSpace (b : GoString) : Bool :=
  b.any fun c => !isSpace c

/-- The loop of `Decoder.readValue` over the bytes not yet scanned, `scanned`
being those before them: the bytes of the first value and the bytes left in
the stream, or the error. The end of the stream is `io.EOF` from `refill`. -/
def readValueLoop : scanner → GoString → GoString → Except GoError (GoString × GoString)
  | s, scanned, [] =>
    match s.stepFn (B ' ') with
    | (_, .scanEnd) => .ok (scanned, [])
    | _ =>
      if nonSpace scanned then .error (.Other (str "unexpected EOF"))
      else .error (.Other (str "EOF"))
  | s, scanned, c :: rest =>
    match s.stepFn c with
    | (_, .scanEnd) => .ok (scanned, c :: rest)
    | (s, .scanEndObject) | (s, .scanEndArray) =>
      match stateEndValue s (B ' ') with
      | (_, .scanEnd) => .ok (scanned ++ [c], rest)
      | (s, _) => readValueLoop s (scanned ++ [c]) rest
    | (s, .scanError) => .error (s.err.getD (.Other []))
    | (s, _) => readValueLoop s (scanned ++ [c]) rest

/-- Method `Decoder.readValue` of a new decoder over the stream `body`. -/
def readValue (body : GoString) : Except GoError (GoString × GoString) :=
  readValueLoop scanner.reset [] body

/-- Method `Decoder.Decode` of a new decoder over the stream `body`, into a
zero `result`: `readValue`, then `d.unmarshal` on the bytes of the value
read. The unmarshalling, which depends on types declared outside the
package, is the parameter `unmarshal`. -/
def Decode (unmarshal : GoString → result × Option GoError) (body : GoString) :
    result × Option GoError :=
  match readValue body with
  | .error err => ({ References := none }, some err)
  | .ok (value, _) => unmarshal value

/-- The scanner has neither finished the top-level value nor met an error. -/
def Scanning (s : scanner) : Prop :=
  s.endTop = false ∧ s.err = none ∧ s.step ≠ StepFn.stateError ∧ s.step ≠ StepFn.stateEndTop

/-- What a step of a scanning scanner on the byte `c` can give: the end of
the top-level value, an error that is recorded, a closing bracket that either
ends the top-level value or leaves the scanner scanning, or any other code,
with the scanner still scanning. -/
def StepOutcome (c : Byte) (r : scanner × ScanOp) : Prop :=
  (r.2 = ScanOp.scanEnd)
    ∨ (r.2 = ScanOp.scanError ∧ r.1.err ≠ none ∧ r.1.endTop = false)
    ∨ ((r.2 = ScanOp.scanEndObject ∨ r.2 = ScanOp.scanEndArray)
        ∧ isSpace c = false
        ∧ ((stateEndValue r.1 (B ' ')).2 = ScanOp.scanEnd
          ∨ (stateEndValue r.1 (B ' ') = (r.1, ScanOp.scanSkipSpace) ∧ Scanning r.1)))
    ∨ (r.2 ≠ ScanOp.scanEnd ∧ r.2 ≠ ScanOp.scanError
        ∧ r.2 ≠ ScanOp.scanEndObject ∧ r.2 ≠ ScanOp.scanEndArray ∧ Scanning r.1)

/-! ## `discoverer.go` -/

/-- A collaborator call recorded during `Discover`. -/
inductive Event where
  /-- Function `ContextWithRepositoryScope` was called. -/
  | scope (refspec : Spec)
  /-- The request built for the configured host `originalHost` was handed to
  the transport (`doWithRetries`). -/
  | send (originalHost : RegistryHost) (req : request)
  deriving DecidableEq, Repr

/-- What a call of `Discover` returns, and the collaborator calls it made. -/
structure Run where
  refs : Slice DiscoveredArtifact
  err : Option GoError
  events : List Event
  deriving DecidableEq, Repr

/-- Lines 105-111 of `discover`: allocate `len(result.References)` zero
artifacts, then assign index by index. -/
def convert (References : Slice reference) : Slice DiscoveredArtifact :=
  ((References.getD []).enum).foldl
    (fun artifacts ia =>
      artifacts.map (fun xs => xs.set ia.1 { Digest := ia.2.Digest, Artifact := ia.2.Manifest }))
    (make (len References))

/-- Method `dockerDiscoverer.discover`: send the request and decode the
response. -/
def discover (c : Collaborators) (ctx : Context) (req : request) :
    Slice DiscoveredArtifact × Option GoError :=
  match c.doWithRetries ctx req with
  | .error err => (none, some err)
  | .ok resp =>
    if resp.StatusCode ≠ StatusOK then
      let (registryErr, err) := c.decodeErrors resp.Body
      if err ≠ none ∨ registryErr.length < 1 then
        (none, some (GoError.Errorf (str "unexpected status code " ++ c.requestString req
          ++ str ": " ++ resp.Status)))
      else
        (none, some (GoError.Errorf (str "unexpected status code " ++ c.requestString req
          ++ str ": " ++ resp.Status ++ str " - Server message: "
          ++ c.errorsError registryErr)))
    else
      let (result, err) := c.decodeResult resp.Body
      match err with
      | some err => (none, some err)
      | none => (convert result.References, none)

/-- Lines 57-60 of `Discover`: the request built for one host, not yet
annotated with the namespace. -/
def buildRequest (c : Collaborators) (r : dockerBase) (originalHost : RegistryHost)
    (desc : Descriptor) (query : GoString) : request :=
  let host := { originalHost with Path := originalHost.Path ++ str "/_ext/oci-artifacts/v1-rc1" }
  let req := c.newRequest r host MethodGet [str "manifests", desc.Digest, str "referrers"]
  { req with path := req.path ++ query }

/-- The `for` loop of `Discover` (lines 55-77) over the remaining hosts, with
the current `firstErr` and the events so far. -/
def tryHosts (c : Collaborators) (r : dockerBase) (ctx : Context) (desc : Descriptor)
    (query : GoString) : Option GoError → List RegistryHost → List Event → Run
  | firstErr, [], events => { refs := none, err := firstErr, events := events }
  | firstErr, originalHost :: rest, events =>
    let req := buildRequest c r originalHost desc query
    match c.addNamespace req r.refspec.Hostname with
    | .error err => { refs := none, err := some err, events := events }
    | .ok req =>
      match discover c ctx req with
      | (_, some err) =>
        let firstErr := if firstErr = none then some err else firstErr
        tryHosts c r ctx desc query firstErr rest (events ++ [Event.send originalHost req])
      | (refs, none) => { refs := refs, err := none, events := events ++ [Event.send originalHost req] }

/-- The query string of `Discover` (lines 51-53). -/
def discoverQuery (artifactType : GoString) : GoString :=
  let v : Values := []
  let v := v.Set (str "referenceType") artifactType
  str "?" ++ v.Encode

/-- Method `dockerDiscoverer.Discover`. -/
def Discover (c : Collaborators) (r : dockerBase) (ctx : Context) (desc : Descriptor)
    (artifactType : GoString) : Run :=
  let ctx := c.WithLogger ctx desc.Digest
  let hosts := filterHosts r HostCapabilityDiscover
  if hosts.length = 0 then
    { refs := none, err := some (GoError.Wrap GoError.ErrNotFound (str "no discover hosts")), events := [] }
  else
    match c.ContextWithRepositoryScope ctx r.refspec false with
    | .error err => { refs := none, err := some err, events := [Event.scope r.refspec] }
    | .ok ctx =>
      let query := discoverQuery artifactType
      tryHosts c r ctx desc query none r.hosts [Event.scope r.refspec]

/-! ## Observations on a run -/

/-- The configured hosts of the `send` events, in order. -/
def sentHosts (events : List Event) : List RegistryHost :=
  events.filterMap fun
    | Event.send originalHost _ => some originalHost
    | Event.scope _ => none

/-- The configured hosts to which a request was sent, in sending order. -/
def attemptedHosts (run : Run) : List RegistryHost :=
  sentHosts run.events

/-- The number of times a repository-scope context was built. -/
def scopesBuilt (run : Run) : Nat :=
  (run.events.filter fun
    | Event.scope _ => true
    | Event.send _ _ => false).length

/-- The update of `firstErr` on a failed attempt (lines 68-70). -/
def recordFirst (firstErr : Option GoError) (err : GoError) : Option GoError :=
  if firstErr = none then some err else firstErr

/-- Lines 57-63 for one host: the request after the namespace annotation, or
the annotation failure. -/
def annotated (c : Collaborators) (r : dockerBase) (desc : Descriptor) (query : GoString)
    (originalHost : RegistryHost) : Except GoError request :=
  c.addNamespace (buildRequest c r originalHost desc query) r.refspec.Hostname

/-- The attempt on a host is made and fails with `err`: the request is
annotated, sent, and `discover` returns the error `err`. -/
def AttemptFails (c : Collaborators) (r : dockerBase) (ctx : Context) (desc : Descriptor)
    (query : GoString) (originalHost : RegistryHost) (err : GoError) : Prop :=
  ∃ req, annotated c r desc query originalHost = .ok req ∧ (discover c ctx req).2 = some err

/-- The attempt on a host is made and succeeds with `refs`: the request is
annotated, sent, and `discover` returns `refs` and no error. -/
def AttemptSucceeds (c : Collaborators) (r : dockerBase) (ctx : Context) (desc : Descriptor)
    (query : GoString) (originalHost : RegistryHost) (refs : Slice DiscoveredArtifact) : Prop :=
  ∃ req, annotated c r desc query originalHost = .ok req ∧ discover c ctx req = (refs, none)

/-! ## URL encoding as the specification words it -/

/-- The unreserved characters of a URL: letters, digits, `-`, `.`, `_`, `~`. -/
def unreserved (c : Byte) : Bool :=
  (B 'a' ≤ c && c ≤ B 'z') || (B 'A' ≤ c && c ≤ B 'Z') || (B '0' ≤ c && c ≤ B '9')
    || c == B '-' || c == B '.' || c == B '_' || c == B '~'

/-- Percent-encoding of one byte: `%` and two upper-case hexadecimal digits. -/
def percentTriple (c : Byte) : GoString :=
  [B '%', upperhex.getD (c.val / 16) 0, upperhex.getD (c.val % 16) 0]

/-- Percent-encoding of a string: every byte that is not unreserved, the space
included, becomes its `%XX` triple. -/
def percentEncode (s : GoString) : GoString :=
  s.flatMap fun c => if unreserved c then [c] else percentTriple c

/-- Form encoding of a string: as `percentEncode`, but the space is written
`+`. -/
def formEncode (s : GoString) : GoString :=
  s.flatMap fun c => if c = B ' ' then [B '+'] else if unreserved c then [c] else percentTriple c

/-- The value of a hexadecimal digit. -/
def unhex (c : Byte) : Option Nat :=
  if B '0' ≤ c ∧ c ≤ B '9' then some (c.val - (B '0').val)
  else if B 'a' ≤ c ∧ c ≤ B 'f' then some (c.val - (B 'a').val + 10)
  else if B 'A' ≤ c ∧ c ≤ B 'F' then some (c.val - (B 'A').val + 10)
  else none

/-- One decoding pass over a query value: `+` is the space, `%XX` is the byte
with that hexadecimal value, a `%` not followed by two hexadecimal digits is
malformed. -/
def queryUnescape : GoString → Option GoString
  | [] => some []
  | c :: rest =>
    if c = B '%' then
      match rest with
      | h₁ :: h₂ :: rest' =>
        match unhex h₁, unhex h₂, queryUnescape rest' with
        | some hi, some lo, some tail => some (Fin.ofNat (hi * 16 + lo) :: tail)
        | _, _, _ => none
      | _ => none
    else if c = B '+' then (queryUnescape rest).map (fun tail => B ' ' :: tail)
    else (queryUnescape rest).map (fun tail => c :: tail)

/-! ## Example collaborators -/

namespace Example

/-- A registry host that declares the discover capability. -/
def hostA : RegistryHost :=
  { Host := str "a.example", Scheme := str "https", Path := str "/v2",
    Capabilities := [.Pull, .Resolve, .Discover] }

/-- A second registry host that declares the discover capability. -/
def hostB : RegistryHost :=
  { Host := str "b.example", Scheme := str "https", Path := str "/v2",
    Capabilities := [.Pull, .Resolve, .Discover] }

/-- A third registry host that declares the discover capability. -/
def hostC : RegistryHost :=
  { Host := str "c.example", Scheme := str "https", Path := str "/v2",
    Capabilities := [.Pull, .Resolve, .Discover] }

/-- A mirror that serves pulls only: it does not declare the discover
capability. -/
def mirror : RegistryHost :=
  { Host := str "mirror.example", Scheme := str "https", Path := str "/v2",
    Capabilities := [.Pull, .Resolve] }

/-- The subject of the example calls. -/
def subject : Descriptor :=
  { MediaType := str "application/vnd.oci.image.manifest.v1+json", Digest := str "sha256:aa",
    Size := 7 }

/-- The discoverer of the example calls, over the given hosts. -/
def base (hosts : List RegistryHost) : dockerBase :=
  { refspec := { Locator := str "a.example/library/app", Object := str "latest" },
    repository := str "library/app", hosts := hosts }

/-- A request constructor: host path, repository and path segments joined
with `/`. -/
def newRequest (r : dockerBase) (host : RegistryHost) (method : GoString)
    (ps : List GoString) : request :=
  { method := method,
    path := host.Path ++ str "/" ++ r.repository ++ ps.flatMap (fun p => str "/" ++ p),
    host := host }

/-- The body of a referrers response with no reference. -/
def emptyBody : GoString := str "\x7b\"references\": []\x7d"

/-- The body of a referrers response with one reference. -/
def oneBody : GoString :=
  str "\x7b\"references\":[\x7b\"digest\":\"sha256:bb\",\"manifest\":\x7b\"artifactType\":\"sig\"\x7d\x7d]\x7d"

/-- The body of a registry error response with one entry. -/
def unknownBody : GoString :=
  str "\x7b\"errors\":[\x7b\"code\":\"MANIFEST_UNKNOWN\",\"message\":\"not found\"\x7d]\x7d"

/-- The manifest carried by `oneBody`. -/
def sig : Artifact := { (default : Artifact) with ArtifactType := str "sig" }

/-- What the JSON decoder leaves in `result` for the example bodies; any other
body is a syntax error. -/
def decodeResult (body : GoString) : result × Option GoError :=
  if body = emptyBody then ({ References := some [] }, none)
  else if body = oneBody then
    ({ References := some [{ Digest := str "sha256:bb", Manifest := sig }] }, none)
  else ({ References := none }, some (.Other (str "invalid character")))

/-- What the JSON decoder leaves in `registryErr` for the example bodies; any
other body is a syntax error. -/
def decodeErrors (body : GoString) : Errors × Option GoError :=
  if body = unknownBody then ([.Other (str "manifest unknown: not found")], none)
  else ([], some (.Other (str "invalid character")))

/-- The joined messages of an error list. -/
def errorsError : Errors → GoString
  | [] => str "<nil>"
  | [e] => e.Error
  | es => str "errors:\n" ++ es.flatMap (fun e => e.Error ++ str "\n")

/-- Collaborators with the given transport and namespace annotation. -/
def collaborators (transport : request → Except GoError Response)
    (addNamespace : request → GoString → Except GoError request) : Collaborators :=
  { WithLogger := fun ctx d => (str "digest", d) :: ctx
    ContextWithRepositoryScope := fun ctx refspec _ =>
      .ok ((str "scope", str "repository:" ++ refspec.Locator ++ str ":pull") :: ctx)
    newRequest := newRequest
    addNamespace := addNamespace
    doWithRetries := fun _ req => transport req
    requestString := fun req => req.host.Scheme ++ str "://" ++ req.host.Host ++ req.path
    decodeErrors := decodeErrors
    errorsError := errorsError
    decodeResult := decodeResult }

/-- The namespace annotation that leaves every request as it is. -/
def noNamespace (req : request) (_ : GoString) : Except GoError request := .ok req

/-- A transport on which every host is unreachable. -/
def unreachable (req : request) : Except GoError Response :=
  .error (.Other (str "dial tcp " ++ req.host.Host ++ str ": connection refused"))

/-- A transport on which `a.example` answers 404 with a registry error list,
`b.example` answers 200 with one reference, and every other host is
unreachable. -/
def secondAnswers (req : request) : Except GoError Response :=
  if req.host.Host = str "a.example" then
    .ok { StatusCode := 404, Status := str "404 Not Found", Body := unknownBody }
  else if req.host.Host = str "b.example" then
    .ok { StatusCode := 200, Status := str "200 OK", Body := oneBody }
  else unreachable req

/-- A transport on which `a.example` answers 500 with a body that is not
JSON, and the caller's context is cancelled during the attempt on the next
host, so that this attempt and every later one fail with
`context.Canceled`. -/
def cancelledAfterFirst (req : request) : Except GoError Response :=
  if req.host.Host = str "a.example" then
    .ok { StatusCode := 500, Status := str "500 Internal Server Error", Body := str "oops" }
  else .error .Canceled

/-- A transport on which every host answers 200 with no reference. -/
def noReferrers (_ : request) : Except GoError Response :=
  .ok { StatusCode := 200, Status := str "200 OK", Body := emptyBody }

/-- The filter with reserved characters of the specification's scenario. -/
def reservedFilter : GoString := str "application/vnd.foo+json;q=1 bar"

/-- The request built for `a.example` in the example calls. -/
def requestA : request :=
  { method := str "GET",
    path := str "/v2/_ext/oci-artifacts/v1-rc1/library/app/manifests/sha256:aa/referrers?referenceType=sig",
    host := { hostA with Path := str "/v2/_ext/oci-artifacts/v1-rc1" } }

/-- The request built for `b.example` in the example calls. -/
def requestB : request :=
  { method := str "GET",
    path := str "/v2/_ext/oci-artifacts/v1-rc1/library/app/manifests/sha256:aa/referrers?referenceType=sig",
    host := { hostB with Path := str "/v2/_ext/oci-artifacts/v1-rc1" } }

/-- The request built for `c.example` in the example calls. -/
def requestC : request :=
  { method := str "GET",
    path := str "/v2/_ext/oci-artifacts/v1-rc1/library/app/manifests/sha256:aa/referrers?referenceType=sig",
    host := { hostC with Path := str "/v2/_ext/oci-artifacts/v1-rc1" } }

/-- A namespace annotation that fails on `b.example`. -/
def badNamespace (req : request) (_ : GoString) : Except GoError request :=
  if req.host.Host = str "b.example" then .error (.Other (str "invalid URL escape"))
  else .ok req

/-- The context of the example calls after `WithLogger` and the scope
construction. -/
def scopedCtx : Context :=
  [(str "scope", str "repository:a.example/library/app:pull"), (str "digest", str "sha256:aa")]

/-- The body `\x7b"references": []\x7d trailing garbage`: a complete JSON value,
then bytes that are not JSON. -/
def trailingBody : GoString := emptyBody ++ str " trailing garbage"

/-- The body with one reference, then bytes that are not JSON. -/
def oneTrailingBody : GoString := oneBody ++ str " <html>"

/-- What `d.unmarshal` leaves in `result` for the values of the example
bodies, and the error it returns. -/
def unmarshalResult (value : GoString) : result × Option GoError :=
  if value = emptyBody then ({ References := some [] }, none)
  else if value = oneBody then
    ({ References := some [{ Digest := str "sha256:bb", Manifest := sig }] }, none)
  else ({ References := none }, some (.Other (str "json: cannot unmarshal")))

/-- A transport on which every host answers 200 with `trailingBody`. -/
def trailingGarbage (_ : request) : Except GoError Response :=
  .ok { StatusCode := 200, Status := str "200 OK", Body := trailingBody }

/-- A transport on which every host answers 200 with `oneTrailingBody`. -/
def oneThenGarbage (_ : request) : Except GoError Response :=
  .ok { StatusCode := 200, Status := str "200 OK", Body := oneTrailingBody }

/-- Collaborators with the given transport whose decoder of the result is
`Decode`, over the example unmarshalling. -/
def jsonCollaborators (transport : request → Except GoError Response) : Collaborators :=
  { collaborators transport noNamespace with decodeResult := Decode unmarshalResult }

end Example

/-! ## The loop of `Discover` -/

section Loop

variable (c : Collaborators) (r : dockerBase) (ctx : Context) (desc : Descriptor)
  (query : GoString)

theorem sentHosts_append (xs ys : List Event) :
    sentHosts (xs ++ ys) = sentHosts xs ++ sentHosts ys := by
  simp [sentHosts, List.filterMap_append]

theorem recordFirst_some (e err : GoError) : recordFirst (some e) err = some e := by
  simp [recordFirst]

theorem recordFirst_none (err : GoError) : recordFirst none err = some err := by
  simp [recordFirst]

/-- A failed attempt: the loop records the error if it is the first and goes
on with the remaining hosts. -/
theorem tryHosts_cons_fail (firstErr : Option GoError) (h : RegistryHost)
    (rest : List RegistryHost) (events : List Event) (req : request) (err : GoError)
    (hreq : annotated c r desc query h = .ok req)
    (hfail : (discover c ctx req).2 = some err) :
    tryHosts c r ctx desc query firstErr (h :: rest) events
      = tryHosts c r ctx desc query (recordFirst firstErr err) rest
          (events ++ [Event.send h req]) := by
  unfold annotated at hreq
  rcases hd : discover c ctx req with ⟨refs, e⟩
  rw [hd] at hfail
  simp only at hfail
  subst hfail
  simp only [tryHosts, hreq, hd, recordFirst]

/-- A successful attempt: the loop returns its artifacts at once. -/
theorem tryHosts_cons_ok (firstErr : Option GoError) (h : RegistryHost)
    (rest : List RegistryHost) (events : List Event) (req : request)
    (refs : Slice DiscoveredArtifact)
    (hreq : annotated c r desc query h = .ok req)
    (hok : discover c ctx req = (refs, none)) :
    tryHosts c r ctx desc query firstErr (h :: rest) events
      = { refs := refs, err := none, events := events ++ [Event.send h req] } := by
  unfold annotated at hreq
  simp only [tryHosts, hreq, hok]

/-- A failed annotation: the loop returns the annotation error at once,
without sending. -/
theorem tryHosts_cons_unannotated (firstErr : Option GoError) (h : RegistryHost)
    (rest : List RegistryHost) (events : List Event) (err : GoError)
    (hreq : annotated c r desc query h = .error err) :
    tryHosts c r ctx desc query firstErr (h :: rest) events
      = { refs := none, err := some err, events := events } := by
  unfold annotated at hreq
  simp only [tryHosts, hreq]

/-- Over a prefix of hosts whose attempts all fail, the loop sends one
request per host, in order, keeps the first error, and continues with the
rest. -/
theorem tryHosts_failing_hosts (pre : List RegistryHost) (errs : List GoError)
    (hfail : List.Forall₂ (fun h e => AttemptFails c r ctx desc query h e) pre errs)
    (rest : List RegistryHost) (firstErr : Option GoError) (events : List Event) :
    ∃ evs, sentHosts evs = pre ∧
      tryHosts c r ctx desc query firstErr (pre ++ rest) events
        = tryHosts c r ctx desc query (firstErr <|> errs.head?) rest (events ++ evs) := by
  induction hfail generalizing firstErr events with
  | nil => exact ⟨[], rfl, by simp⟩
  | @cons h e pre errs hhe _ ih =>
    obtain ⟨req, hreq, hd⟩ := hhe
    obtain ⟨evs, hevs, hrun⟩ := ih (recordFirst firstErr e) (events ++ [Event.send h req])
    refine ⟨Event.send h req :: evs, ?_, ?_⟩
    · simp only [sentHosts, List.filterMap_cons] at hevs ⊢
      rw [hevs]
    · rw [List.cons_append, tryHosts_cons_fail c r ctx desc query firstErr h _ events req e hreq hd,
        hrun, List.append_assoc, List.singleton_append]
      congr 1
      cases firstErr <;> cases errs <;> simp [recordFirst]

/-- From attempt failures host by host to the list of their errors. -/
theorem forall₂_of_forall_fail (pre : List RegistryHost)
    (hfail : ∀ h ∈ pre, ∃ e, AttemptFails c r ctx desc query h e) :
    ∃ errs, List.Forall₂ (fun h e => AttemptFails c r ctx desc query h e) pre errs := by
  induction pre with
  | nil => exact ⟨[], List.Forall₂.nil⟩
  | cons h pre ih =>
    obtain ⟨e, he⟩ := hfail h (List.mem_cons_self h pre)
    obtain ⟨errs, herrs⟩ := ih (fun h' hh' => hfail h' (List.mem_cons_of_mem h hh'))
    exact ⟨e :: errs, List.Forall₂.cons he herrs⟩

/-- The attempt on a host has one outcome: two failures are the same. -/
theorem AttemptFails_unique (h : RegistryHost) (e₁ e₂ : GoError)
    (h₁ : AttemptFails c r ctx desc query h e₁) (h₂ : AttemptFails c r ctx desc query h e₂) :
    e₁ = e₂ := by
  obtain ⟨req₁, hr₁, hd₁⟩ := h₁
  obtain ⟨req₂, hr₂, hd₂⟩ := h₂
  rw [hr₁] at hr₂
  cases hr₂
  rw [hd₁] at hd₂
  exact Option.some.inj hd₂

end Loop

/-- Past the eligibility check and the scope construction, `Discover` is its
loop over the configured hosts. -/
theorem Discover_eq_tryHosts (c : Collaborators) (r : dockerBase) (ctx ctx' : Context)
    (desc : Descriptor) (artifactType : GoString)
    (heligible : filterHosts r HostCapabilityDiscover ≠ [])
    (hscope : c.ContextWithRepositoryScope (c.WithLogger ctx desc.Digest) r.refspec false
      = .ok ctx') :
    Discover c r ctx desc artifactType
      = tryHosts c r ctx' desc (discoverQuery artifactType) none r.hosts
          [Event.scope r.refspec] := by
  have hlen : ¬ (filterHosts r HostCapabilityDiscover).length = 0 := by
    simpa [List.length_eq_zero] using heligible
  simp only [Discover, hlen, if_false, hscope]

set_option maxRecDepth 100000

/-- The loop only adds events: what was recorded stays a prefix. -/
theorem tryHosts_events_grow (c : Collaborators) (r : dockerBase) (ctx : Context)
    (desc : Descriptor) (query : GoString) (hosts : List RegistryHost)
    (firstErr : Option GoError) (events : List Event) :
    events <+: (tryHosts c r ctx desc query firstErr hosts events).events := by
  induction hosts generalizing firstErr events with
  | nil => simp [tryHosts]
  | cons h rest ih =>
    cases hreq : annotated c r desc query h with
    | error err =>
      rw [tryHosts_cons_unannotated c r ctx desc query firstErr h rest events err hreq]
    | ok req =>
      rcases hd : discover c ctx req with ⟨refs, _ | err⟩
      · rw [tryHosts_cons_ok c r ctx desc query firstErr h rest events req refs hreq hd]
        exact List.prefix_append events _
      · rw [tryHosts_cons_fail c r ctx desc query firstErr h rest events req err hreq
          (by rw [hd])]
        exact (List.prefix_append events _).trans (ih _ _)

/-- Every request the loop sends is the annotated request of a host of the
list it runs over. -/
theorem tryHosts_events_sound (c : Collaborators) (r : dockerBase) (ctx : Context)
    (desc : Descriptor) (query : GoString) (all : List RegistryHost)
    (hosts : List RegistryHost) (hsub : ∀ h ∈ hosts, h ∈ all)
    (firstErr : Option GoError) (events : List Event)
    (hev : ∀ h req, Event.send h req ∈ events →
      h ∈ all ∧ annotated c r desc query h = .ok req) :
    ∀ h req, Event.send h req ∈ (tryHosts c r ctx desc query firstErr hosts events).events →
      h ∈ all ∧ annotated c r desc query h = .ok req := by
  induction hosts generalizing firstErr events with
  | nil => simpa [tryHosts] using hev
  | cons h₀ rest ih =>
    have hrest : ∀ h ∈ rest, h ∈ all := fun h hh => hsub h (List.mem_cons_of_mem h₀ hh)
    cases hreq : annotated c r desc query h₀ with
    | error err =>
      rw [tryHosts_cons_unannotated c r ctx desc query firstErr h₀ rest events err hreq]
      exact hev
    | ok req₀ =>
      have hev' : ∀ h req, Event.send h req ∈ events ++ [Event.send h₀ req₀] →
          h ∈ all ∧ annotated c r desc query h = .ok req := by
        intro h req hmem
        rcases List.mem_append.1 hmem with hmem | hmem
        · exact hev h req hmem
        · rw [List.mem_singleton] at hmem
          cases hmem
          exact ⟨hsub h₀ (List.mem_cons_self h₀ rest), hreq⟩
      rcases hd : discover c ctx req₀ with ⟨refs, _ | err⟩
      · rw [tryHosts_cons_ok c r ctx desc query firstErr h₀ rest events req₀ refs hreq hd]
        exact hev'
      · rw [tryHosts_cons_fail c r ctx desc query firstErr h₀ rest events req₀ err hreq
          (by rw [hd])]
        exact ih hrest _ _ hev'

/-- The conversion of lines 105-111, with the slice under construction made
explicit. -/
theorem fill_eq_map (f : reference → DiscoveredArtifact) (ys : List reference)
    (done : List DiscoveredArtifact) :
    (ys.enumFrom done.length).foldl
        (fun (artifacts : Slice DiscoveredArtifact) ia =>
          artifacts.map (fun xs => xs.set ia.1 (f ia.2)))
        (some (done ++ List.replicate ys.length default))
      = some (done ++ ys.map f) := by
  induction ys generalizing done with
  | nil => simp
  | cons y ys ih =>
    have h := ih (done ++ [f y])
    simp only [List.length_append, List.length_singleton, List.append_assoc,
      List.singleton_append] at h
    simp only [List.enumFrom_cons, List.foldl_cons, List.length_cons, List.replicate_succ,
      Option.map_some', List.map_cons]
    rw [← h]
    congr 2
    simp

/-- Lines 105-111 build the element-wise image of the decoded references, a
non-nil slice also when the decoded slice is nil. -/
theorem convert_eq_map (References : Slice reference) :
    convert References
      = some ((References.getD []).map
          fun a => { Digest := a.Digest, Artifact := a.Manifest }) := by
  have h := fill_eq_map (fun a => { Digest := a.Digest, Artifact := a.Manifest })
    (References.getD []) []
  cases References with
  | none => simp [convert, make, len, List.enum]
  | some xs => simpa [convert, make, len, List.enum] using h

/-- Nothing to escape means every byte is copied. -/
theorem escapeByte_of_not_shouldEscape (c : Byte) (h : shouldEscape c = false) :
    escapeByte c = [c] := by
  revert c
  decide

/-- The two passes of `escape` agree with escaping byte by byte: the early
return happens only when every byte is copied. -/
theorem escape_eq_flatMap (s : GoString) : escape s = s.flatMap escapeByte := by
  unfold escape
  dsimp only
  split
  · rename_i h
    obtain ⟨h₁, h₂⟩ := h
    rw [List.length_eq_zero, List.filter_eq_nil_iff] at h₁ h₂
    have hs : ∀ c ∈ s, escapeByte c = [c] := by
      intro c hc
      apply escapeByte_of_not_shouldEscape
      have a := h₁ c hc
      have b := h₂ c hc
      cases hse : shouldEscape c
      · rfl
      · by_cases hsp : c = B ' ' <;> simp_all
    clear h₁ h₂
    induction s with
    | nil => rfl
    | cons c s ih =>
      rw [List.flatMap_cons, hs c (List.mem_cons_self c s),
        ← ih (fun c' hc' => hs c' (List.mem_cons_of_mem c hc'))]
      rfl
  · rfl

/-- Function `escapeByte` is form encoding of one byte. -/
theorem escapeByte_eq_form (c : Byte) :
    escapeByte c
      = (if c = B ' ' then [B '+'] else if unreserved c then [c] else percentTriple c) := by
  revert c
  decide

/-- Function `QueryEscape` is form encoding. -/
theorem QueryEscape_eq_formEncode (s : GoString) : QueryEscape s = formEncode s := by
  rw [QueryEscape, escape_eq_flatMap, formEncode]
  congr 1
  funext c
  exact escapeByte_eq_form c

/-- The query of `Discover` is `?referenceType=` and the form-encoded
filter. -/
theorem discoverQuery_eq (artifactType : GoString) :
    discoverQuery artifactType = str "?referenceType=" ++ formEncode artifactType := by
  have hkey : formEncode (str "referenceType") = str "referenceType" := by decide
  have hlit : str "?referenceType=" = str "?" ++ (str "referenceType" ++ [B '=']) := by decide
  simp only [discoverQuery, Values.Set, Values.Encode, List.filter_nil, List.map_cons,
    List.map_nil, List.insertionSort, List.orderedInsert, List.foldl_cons, List.foldl_nil,
    List.find?, decide_True, Option.map_some', Option.getD_some, encodeKey,
    QueryEscape_eq_formEncode, hkey, hlit, List.length_nil, gt_iff_lt, lt_self_iff_false,
    if_false, List.nil_append, List.append_assoc]

/-- The two hexadecimal digits written for a byte read back as that byte. -/
theorem unhex_upperhex (c : Byte) :
    unhex (upperhex.getD (c.val / 16) 0) = some (c.val / 16)
      ∧ unhex (upperhex.getD (c.val % 16) 0) = some (c.val % 16)
      ∧ (Fin.ofNat (c.val / 16 * 16 + c.val % 16) : Byte) = c := by
  revert c
  decide

/-- An unreserved byte is none of `%`, `+` and the space. -/
theorem unreserved_plain (c : Byte) (h : unreserved c = true) :
    c ≠ B '%' ∧ c ≠ B '+' ∧ c ≠ B ' ' := by
  revert c
  decide

/-- Decoding at a `%` followed by two bytes. -/
theorem queryUnescape_percent (h₁ h₂ : Byte) (rest : GoString) :
    queryUnescape (B '%' :: h₁ :: h₂ :: rest)
      = match unhex h₁, unhex h₂, queryUnescape rest with
        | some hi, some lo, some tail => some (Fin.ofNat (hi * 16 + lo) :: tail)
        | _, _, _ => none := by
  rw [queryUnescape]
  simp

/-- Decoding at a `+`. -/
theorem queryUnescape_plus (rest : GoString) :
    queryUnescape (B '+' :: rest) = (queryUnescape rest).map (fun tail => B ' ' :: tail) := by
  have h₁ : B '+' ≠ B '%' := by decide
  rcases rest with _ | ⟨a, _ | ⟨b, rest'⟩⟩ <;> simp [queryUnescape, h₁]

/-- Decoding at any other byte. -/
theorem queryUnescape_plain (c : Byte) (rest : GoString) (h₁ : c ≠ B '%') (h₂ : c ≠ B '+') :
    queryUnescape (c :: rest) = (queryUnescape rest).map (fun tail => c :: tail) := by
  rcases rest with _ | ⟨a, _ | ⟨b, rest'⟩⟩ <;> simp [queryUnescape, h₁, h₂]

/-- One decoding pass undoes the form encoding of one byte. -/
theorem queryUnescape_form_cons (c : Byte) (rest : GoString) :
    queryUnescape
        ((if c = B ' ' then [B '+'] else if unreserved c then [c] else percentTriple c) ++ rest)
      = (queryUnescape rest).map (fun tail => c :: tail) := by
  by_cases hsp : c = B ' '
  · subst hsp
    simp only [if_true, List.singleton_append, queryUnescape_plus]
  · by_cases hun : unreserved c = true
    · obtain ⟨h₁, h₂, _⟩ := unreserved_plain c hun
      simp only [hsp, hun, if_false, if_true, List.singleton_append,
        queryUnescape_plain c rest h₁ h₂]
    · obtain ⟨h₁, h₂, h₃⟩ := unhex_upperhex c
      have hun' : unreserved c = false := by simpa using hun
      simp only [hsp, hun', if_false, Bool.false_eq_true, percentTriple, List.cons_append,
        List.nil_append, queryUnescape_percent, h₁, h₂]
      cases queryUnescape rest with
      | none => rfl
      | some tail => simp only [h₃, Option.map_some']

/-- One decoding pass over the form-encoded string gives the string back. -/
theorem queryUnescape_formEncode (s : GoString) : queryUnescape (formEncode s) = some s := by
  induction s with
  | nil => rfl
  | cons c s ih =>
    have h := queryUnescape_form_cons c (formEncode s)
    rw [ih] at h
    simpa [formEncode, List.flatMap_cons] using h

/-! ## The scanner of `encoding/json` -/

theorem isSpace_space : isSpace (B ' ') = true := by decide

theorem outcome_error (s : scanner) (c c' : Byte) (context : GoString)
    (hend : s.endTop = false) : StepOutcome c (s.error c' context) :=
  Or.inr (Or.inl ⟨rfl, by simp [scanner.error], hend⟩)

theorem outcome_continue (c : Byte) (s : scanner) (op : ScanOp) (h : Scanning s)
    (h₁ : op ≠ ScanOp.scanEnd) (h₂ : op ≠ ScanOp.scanError) (h₃ : op ≠ ScanOp.scanEndObject)
    (h₄ : op ≠ ScanOp.scanEndArray) : StepOutcome c (s, op) :=
  Or.inr (Or.inr (Or.inr ⟨h₁, h₂, h₃, h₄, h⟩))

theorem outcome_pop (s : scanner) (c : Byte) (op : ScanOp) (ps : ParseState)
    (outer : List ParseState) (hps : s.parseState = ps :: outer)
    (hend : s.endTop = false) (herr : s.err = none) (hc : isSpace c = false)
    (hop : op = ScanOp.scanEndObject ∨ op = ScanOp.scanEndArray) :
    StepOutcome c (s.popParseState, op) := by
  refine Or.inr (Or.inr (Or.inl ⟨hop, hc, ?_⟩))
  cases outer with
  | nil =>
    left
    simp [scanner.popParseState, hps, stateEndValue, stateEndTop, isSpace_space]
  | cons p outer =>
    right
    simp [scanner.popParseState, hps, stateEndValue, isSpace_space, Scanning, hend, herr]

theorem outcome_stateEndValue (s : scanner) (c : Byte) (hend : s.endTop = false)
    (herr : s.err = none) : StepOutcome c (stateEndValue s c) := by
  unfold stateEndValue
  cases hps : s.parseState with
  | nil =>
    left
    simp only [stateEndTop]
    split <;> rfl
  | cons ps outer =>
    simp only
    by_cases hc : isSpace c = true
    · rw [if_pos hc]
      exact outcome_continue c _ _ (by simp [Scanning, hend, herr]) (by simp) (by simp) (by simp)
        (by simp)
    · rw [if_neg hc]
      have hc' : isSpace c = false := by simpa using hc
      cases ps with
      | parseObjectKey =>
        simp only
        split
        · exact outcome_continue c _ _ (by simp [Scanning, hend, herr]) (by simp) (by simp)
            (by simp) (by simp)
        · exact outcome_error _ _ _ _ hend
      | parseObjectValue =>
        simp only
        split
        · exact outcome_continue c _ _ (by simp [Scanning, hend, herr]) (by simp) (by simp)
            (by simp) (by simp)
        · split
          · exact outcome_pop s c _ _ outer hps hend herr hc' (Or.inl rfl)
          · exact outcome_error _ _ _ _ hend
      | parseArrayValue =>
        simp only
        split
        · exact outcome_continue c _ _ (by simp [Scanning, hend, herr]) (by simp) (by simp)
            (by simp) (by simp)
        · split
          · exact outcome_pop s c _ _ outer hps hend herr hc' (Or.inr rfl)
          · exact outcome_error _ _ _ _ hend

theorem outcome_push (s : scanner) (c : Byte) (ps : ParseState) (op : ScanOp)
    (h : Scanning s) (h₁ : op ≠ ScanOp.scanEnd) (h₂ : op ≠ ScanOp.scanError)
    (h₃ : op ≠ ScanOp.scanEndObject) (h₄ : op ≠ ScanOp.scanEndArray) :
    StepOutcome c (s.pushParseState c ps op) := by
  unfold scanner.pushParseState
  simp only
  split
  · exact outcome_continue c _ _ (by simpa [Scanning] using h) h₁ h₂ h₃ h₄
  · exact outcome_error _ _ _ _ h.1

theorem outcome_set (s : scanner) (c : Byte) (step : StepFn) (op : ScanOp)
    (hend : s.endTop = false) (herr : s.err = none)
    (hs₁ : step ≠ StepFn.stateError) (hs₂ : step ≠ StepFn.stateEndTop)
    (h₁ : op ≠ ScanOp.scanEnd) (h₂ : op ≠ ScanOp.scanError) (h₃ : op ≠ ScanOp.scanEndObject)
    (h₄ : op ≠ ScanOp.scanEndArray) : StepOutcome c ({ s with step := step }, op) :=
  outcome_continue c _ _ ⟨hend, herr, hs₁, hs₂⟩ h₁ h₂ h₃ h₄

theorem outcome_set_push (s : scanner) (c : Byte) (step : StepFn) (ps : ParseState)
    (op : ScanOp) (hend : s.endTop = false) (herr : s.err = none)
    (hs₁ : step ≠ StepFn.stateError) (hs₂ : step ≠ StepFn.stateEndTop)
    (h₁ : op ≠ ScanOp.scanEnd) (h₂ : op ≠ ScanOp.scanError) (h₃ : op ≠ ScanOp.scanEndObject)
    (h₄ : op ≠ ScanOp.scanEndArray) :
    StepOutcome c ({ s with step := step }.pushParseState c ps op) :=
  outcome_push _ c ps op ⟨hend, herr, hs₁, hs₂⟩ h₁ h₂ h₃ h₄

theorem outcome_stateBeginValue (s : scanner) (c : Byte) (h : Scanning s) :
    StepOutcome c (stateBeginValue s c) := by
  have h' := h
  obtain ⟨hend, herr, _, _⟩ := h'
  have hset : ∀ step, step ≠ StepFn.stateError → step ≠ StepFn.stateEndTop →
      StepOutcome c ({ s with step := step }, ScanOp.scanBeginLiteral) := fun step a b =>
    outcome_set s c step _ hend herr a b ScanOp.noConfusion ScanOp.noConfusion
      ScanOp.noConfusion ScanOp.noConfusion
  unfold stateBeginValue
  by_cases h₁ : isSpace c = true
  · rw [if_pos h₁]
    exact outcome_continue c s _ h ScanOp.noConfusion ScanOp.noConfusion ScanOp.noConfusion
      ScanOp.noConfusion
  rw [if_neg h₁]
  by_cases h₂ : c = B '{'
  · rw [if_pos h₂]
    exact outcome_set_push s _ _ _ _ hend herr StepFn.noConfusion StepFn.noConfusion
      ScanOp.noConfusion ScanOp.noConfusion ScanOp.noConfusion ScanOp.noConfusion
  rw [if_neg h₂]
  by_cases h₃ : c = B '['
  · rw [if_pos h₃]
    exact outcome_set_push s _ _ _ _ hend herr StepFn.noConfusion StepFn.noConfusion
      ScanOp.noConfusion ScanOp.noConfusion ScanOp.noConfusion ScanOp.noConfusion
  rw [if_neg h₃]
  by_cases h₄ : c = quoteByte
  · rw [if_pos h₄]
    exact hset _ StepFn.noConfusion StepFn.noConfusion
  rw [if_neg h₄]
  by_cases h₅ : c = B '-'
  · rw [if_pos h₅]
    exact hset _ StepFn.noConfusion StepFn.noConfusion
  rw [if_neg h₅]
  by_cases h₆ : c = B '0'
  · rw [if_pos h₆]
    exact hset _ StepFn.noConfusion StepFn.noConfusion
  rw [if_neg h₆]
  by_cases h₇ : c = B 't'
  · rw [if_pos h₇]
    exact hset _ StepFn.noConfusion StepFn.noConfusion
  rw [if_neg h₇]
  by_cases h₈ : c = B 'f'
  · rw [if_pos h₈]
    exact hset _ StepFn.noConfusion StepFn.noConfusion
  rw [if_neg h₈]
  by_cases h₉ : c = B 'n'
  · rw [if_pos h₉]
    exact hset _ StepFn.noConfusion StepFn.noConfusion
  rw [if_neg h₉]
  by_cases h₀ : B '1' ≤ c ∧ c ≤ B '9'
  · rw [if_pos h₀]
    exact hset _ StepFn.noConfusion StepFn.noConfusion
  rw [if_neg h₀]
  exact outcome_error _ _ _ _ hend
theorem stepFn_outcome (s : scanner) (c : Byte) (h : Scanning s) :
    StepOutcome c (s.stepFn c) := by
  have h' := h
  obtain ⟨hend, herr, h₁, h₂⟩ := h'
  unfold scanner.stepFn
  cases hstep : s.step
  case stateError => exact absurd hstep h₁
  case stateEndTop => exact absurd hstep h₂
  case stateBeginValue => exact outcome_stateBeginValue s c h
  case stateEndValue => exact outcome_stateEndValue s c hend herr
  all_goals
    simp only [stateBeginValueOrEmpty, stateBeginString, stateBeginStringOrEmpty, stateInString,
      stateInStringEsc, stateInStringEscUn, stateNeg, state1, state0, stateDot, stateDot0,
      stateE, stateESign, stateE0, stateLiteral]
    repeat' split
  all_goals first
    | exact outcome_set s c _ _ hend herr StepFn.noConfusion StepFn.noConfusion
        ScanOp.noConfusion ScanOp.noConfusion ScanOp.noConfusion ScanOp.noConfusion
    | exact outcome_continue c s _ h ScanOp.noConfusion ScanOp.noConfusion ScanOp.noConfusion
        ScanOp.noConfusion
    | exact outcome_stateEndValue _ c hend herr
    | exact outcome_stateBeginValue s c h
    | exact outcome_error _ _ _ _ hend

/-- A stream that is valid JSON as a whole is read without error: while the
scanner is scanning, `checkValid` finding no error makes the loop of
`readValue` return a value. -/
theorem readValueLoop_of_checkValid (body : GoString) (s : scanner) (scanned : GoString)
    (hs : Scanning s) (hvalid : checkValidLoop s body = none) :
    ∃ value rest, readValueLoop s scanned body = .ok (value, rest) := by
  induction body generalizing s scanned with
  | nil =>
    have hout := stepFn_outcome s (B ' ') hs
    obtain ⟨hend, herr, _, _⟩ := hs
    rw [readValueLoop]
    rcases hstep : s.stepFn (B ' ') with ⟨s', op⟩
    rw [hstep] at hout
    have hE : s'.endTop = true := by
      cases hE : s'.endTop
      · exfalso
        by_cases he : s'.err = none
        · simp [checkValidLoop, scanner.eof, herr, hend, hstep, hE, he] at hvalid
        · simp [checkValidLoop, scanner.eof, herr, hend, hstep, hE, he] at hvalid
      · rfl
    rcases hout with h | ⟨_, _, hend'⟩ | ⟨_, hsp, _⟩ | ⟨_, _, _, _, hs'⟩
    · simp only at h
      subst h
      exact ⟨_, _, rfl⟩
    · simp only at hend'
      rw [hE] at hend'
      cases hend'
    · exact absurd hsp (by simp [isSpace_space])
    · obtain ⟨hend', _, _, _⟩ := hs'
      simp only at hend'
      rw [hE] at hend'
      cases hend'
  | cons c body ih =>
    have hout := stepFn_outcome s c hs
    rw [readValueLoop]
    rw [checkValidLoop] at hvalid
    rcases hstep : s.stepFn c with ⟨s', op⟩
    rw [hstep] at hout hvalid
    rcases hout with h | ⟨h, he, _⟩ | ⟨hop, _, hnext⟩ | ⟨h₁, h₂, h₃, h₄, hs'⟩
    · simp only at h
      subst h
      exact ⟨_, _, rfl⟩
    · simp only at h he
      subst h
      simp only at hvalid
      exact absurd hvalid he
    · simp only at hop hnext
      rcases hnext with hend | ⟨hskip, hs'⟩
      · rcases hnx : stateEndValue s' (B ' ') with ⟨s'', op'⟩
        rw [hnx] at hend
        simp only at hend
        subst hend
        rcases hop with hop | hop <;> subst hop <;> simp only [hnx] <;> exact ⟨_, _, rfl⟩
      · rcases hop with hop | hop <;> subst hop <;> simp only [hskip] at hvalid ⊢ <;>
          exact ih s' _ hs' hvalid
    · simp only at h₁ h₂ h₃ h₄ hs'
      cases op <;> simp only at hvalid ⊢ <;>
        first
          | exact ih s' _ hs' hvalid
          | exact absurd rfl h₁
          | exact absurd rfl h₂
          | exact absurd rfl h₃
          | exact absurd rfl h₄

/-- A body that is valid JSON is read by `readValue` without error. -/
theorem readValue_of_Valid (body : GoString) (h : Valid body = true) :
    ∃ value rest, readValue body = .ok (value, rest) := by
  have hvalid : checkValidLoop scanner.reset body = none := by simpa [Valid] using h
  exact readValueLoop_of_checkValid body scanner.reset [] ⟨rfl, rfl, by decide, by decide⟩ hvalid

/-- What the loop of `readValue` returns splits the stream: the value is what
was scanned before and a first part of the bytes, the rest is what follows. -/
theorem readValueLoop_split (body : GoString) (s : scanner) (scanned value rest : GoString)
    (h : readValueLoop s scanned body = .ok (value, rest)) :
    ∃ read, value = scanned ++ read ∧ body = read ++ rest := by
  induction body generalizing s scanned with
  | nil =>
    rw [readValueLoop] at h
    split at h
    · cases h
      exact ⟨[], by simp, rfl⟩
    · split at h <;> cases h
  | cons c body ih =>
    have hrec : ∀ s', readValueLoop s' (scanned ++ [c]) body = .ok (value, rest) →
        ∃ read, value = scanned ++ read ∧ c :: body = read ++ rest := by
      intro s' h'
      obtain ⟨read, h₁, h₂⟩ := ih _ _ h'
      exact ⟨c :: read, by simp [h₁], by simp [h₂]⟩
    rw [readValueLoop] at h
    split at h
    · cases h
      exact ⟨[], by simp, rfl⟩
    · split at h
      · cases h
        exact ⟨[c], rfl, rfl⟩
      · exact hrec _ h
    · split at h
      · cases h
        exact ⟨[c], rfl, rfl⟩
      · exact hrec _ h
    · cases h
    · exact hrec _ h

/-- What is left in the stream is no longer than the stream. -/
theorem readValueLoop_length (body : GoString) (s : scanner) (scanned value rest : GoString)
    (h : readValueLoop s scanned body = .ok (value, rest)) : rest.length ≤ body.length := by
  obtain ⟨read, _, h₂⟩ := readValueLoop_split body s scanned value rest h
  rw [h₂, List.length_append]
  omega

/-- The loop of `readValue` looks at one byte after the value at most: the
bytes after that byte can be replaced by any others. -/
theorem readValueLoop_rest (read : GoString) (s : scanner) (scanned value : GoString)
    (c : Byte) (rest rest' : GoString)
    (h : readValueLoop s scanned (read ++ c :: rest) = .ok (value, c :: rest)) :
    readValueLoop s scanned (read ++ c :: rest') = .ok (value, c :: rest') := by
  induction read generalizing s scanned with
  | nil =>
    have hno : ∀ s' scanned', readValueLoop s' scanned' rest ≠ .ok (value, c :: rest) := by
      intro s' scanned' h'
      have := readValueLoop_length _ _ _ _ _ h'
      simp at this
    simp only [List.nil_append] at h ⊢
    rw [readValueLoop] at h ⊢
    rcases hstep : s.stepFn c with ⟨s', op⟩
    rw [hstep] at h
    cases op
    case scanEnd =>
      simp only [Except.ok.injEq, Prod.mk.injEq, and_true] at h ⊢
      exact h
    case scanError => cases h
    case scanEndObject | scanEndArray =>
      simp only at h ⊢
      rcases hnx : stateEndValue s' (B ' ') with ⟨s'', op'⟩
      rw [hnx] at h
      cases op' <;> simp only at h ⊢ <;>
        first
          | exact absurd h (hno _ _)
          | exact absurd (congrArg List.length (Prod.mk.inj (Except.ok.inj h)).2) (by simp)
    all_goals exact absurd h (hno _ _)
  | cons d read ih =>
    simp only [List.cons_append] at h ⊢
    rw [readValueLoop] at h ⊢
    rcases hstep : s.stepFn d with ⟨s', op⟩
    rw [hstep] at h
    cases op
    case scanEnd =>
      have := congrArg List.length (Prod.mk.inj (Except.ok.inj h)).2
      simp at this
      omega
    case scanError => cases h
    case scanEndObject | scanEndArray =>
      simp only at h ⊢
      rcases hnx : stateEndValue s' (B ' ') with ⟨s'', op'⟩
      rw [hnx] at h
      cases op' <;> simp only at h ⊢ <;>
        first
          | exact ih _ _ h
          | (obtain ⟨hv, hr⟩ := Prod.mk.inj (Except.ok.inj h)
             have hread : read = [] := List.append_left_eq_self.1 hr
             subst hread
             simp [hv])
    all_goals exact ih _ _ h

/-! ## Properties of `Discover` -/

open Example

/-- C1 (failing input): with a mirror that lacks the discover capability
configured before an eligible host, and every attempt failing, `Discover`
sends a request to the mirror first, although the capability-filtered host
list holds the eligible host only. -/
theorem Discover_sends_to_host_without_capability :
    attemptedHosts (Discover (collaborators unreachable noNamespace) (base [mirror, hostA]) []
        subject (str "sig")) = [mirror, hostA]
      ∧ filterHosts (base [mirror, hostA]) HostCapabilityDiscover = [hostA] := by
  decide

/-- C2: when the hosts before host `h` in the list all fail and the attempt on
`h` succeeds with `refs`, `Discover` returns exactly `refs` with no error, and
the hosts it sent a request to are exactly the hosts up to and including `h`,
each once, in list order: no host after `h` is attempted. -/
theorem Discover_first_success (c : Collaborators) (r : dockerBase) (ctx ctx' : Context)
    (desc : Descriptor) (artifactType : GoString) (pre post : List RegistryHost)
    (h : RegistryHost) (refs : Slice DiscoveredArtifact)
    (hhosts : r.hosts = pre ++ h :: post)
    (heligible : filterHosts r HostCapabilityDiscover ≠ [])
    (hscope : c.ContextWithRepositoryScope (c.WithLogger ctx desc.Digest) r.refspec false
      = .ok ctx')
    (hpre : ∀ h' ∈ pre, ∃ e, AttemptFails c r ctx' desc (discoverQuery artifactType) h' e)
    (hk : AttemptSucceeds c r ctx' desc (discoverQuery artifactType) h refs) :
    (Discover c r ctx desc artifactType).refs = refs
      ∧ (Discover c r ctx desc artifactType).err = none
      ∧ attemptedHosts (Discover c r ctx desc artifactType) = pre ++ [h] := by
  obtain ⟨errs, herrs⟩ := forall₂_of_forall_fail c r ctx' desc _ pre hpre
  obtain ⟨evs, hevs, hrun⟩ := tryHosts_failing_hosts c r ctx' desc _ pre errs herrs
    (h :: post) none [Event.scope r.refspec]
  obtain ⟨req, hreq, hok⟩ := hk
  rw [Discover_eq_tryHosts c r ctx ctx' desc artifactType heligible hscope, hhosts, hrun,
    tryHosts_cons_ok c r ctx' desc _ _ h post _ req refs hreq hok]
  refine ⟨rfl, rfl, ?_⟩
  simp only [attemptedHosts, sentHosts_append, hevs]
  simp [sentHosts]

/-- C2 (witness): `a.example` answers 404, `b.example` answers 200 with one
reference, `c.example` is never asked. -/
theorem Discover_first_success_witness :
    (Discover (collaborators secondAnswers noNamespace) (base [hostA, hostB, hostC]) []
        subject (str "sig")).refs = some [{ Digest := str "sha256:bb", Artifact := sig }]
      ∧ (Discover (collaborators secondAnswers noNamespace) (base [hostA, hostB, hostC]) []
        subject (str "sig")).err = none
      ∧ attemptedHosts (Discover (collaborators secondAnswers noNamespace)
        (base [hostA, hostB, hostC]) [] subject (str "sig")) = [hostA] ++ [hostB] :=
  Discover_first_success (collaborators secondAnswers noNamespace) (base [hostA, hostB, hostC])
    [] scopedCtx subject (str "sig") [hostA] [hostC] hostB
    (some [{ Digest := str "sha256:bb", Artifact := sig }]) rfl (by decide) rfl
    (by
      intro h' hh'
      rw [List.mem_singleton] at hh'
      subst hh'
      exact ⟨_, _, rfl, rfl⟩)
    ⟨_, rfl, by decide⟩

/-- C3: when the host list is not empty and the attempt on every host fails
(in the transport or in decoding), `Discover` sends a request to every host
exactly once, in list order, returns no artifacts, and returns the error of
the first host, `e₁`. -/
theorem Discover_all_fail (c : Collaborators) (r : dockerBase) (ctx ctx' : Context)
    (desc : Descriptor) (artifactType : GoString) (h₁ : RegistryHost)
    (rest : List RegistryHost) (e₁ : GoError)
    (hhosts : r.hosts = h₁ :: rest)
    (heligible : filterHosts r HostCapabilityDiscover ≠ [])
    (hscope : c.ContextWithRepositoryScope (c.WithLogger ctx desc.Digest) r.refspec false
      = .ok ctx')
    (hall : ∀ h ∈ r.hosts, ∃ e, AttemptFails c r ctx' desc (discoverQuery artifactType) h e)
    (hfirst : AttemptFails c r ctx' desc (discoverQuery artifactType) h₁ e₁) :
    (Discover c r ctx desc artifactType).refs = none
      ∧ (Discover c r ctx desc artifactType).err = some e₁
      ∧ attemptedHosts (Discover c r ctx desc artifactType) = r.hosts := by
  obtain ⟨errs, herrs⟩ := forall₂_of_forall_fail c r ctx' desc _ r.hosts hall
  obtain ⟨evs, hevs, hrun⟩ := tryHosts_failing_hosts c r ctx' desc _ r.hosts errs herrs
    [] none [Event.scope r.refspec]
  rw [List.append_nil] at hrun
  rw [Discover_eq_tryHosts c r ctx ctx' desc artifactType heligible hscope, hrun]
  rw [hhosts] at herrs
  cases herrs with
  | cons he _ =>
    have := AttemptFails_unique c r ctx' desc _ h₁ _ _ he hfirst
    subst this
    refine ⟨rfl, ?_, ?_⟩
    · simp [tryHosts]
    · simp only [tryHosts, attemptedHosts, sentHosts_append, hevs]
      simp [sentHosts]

/-- C3 (witness): two unreachable hosts; the error is the one of the
first. -/
theorem Discover_all_fail_witness :
    (Discover (collaborators unreachable noNamespace) (base [hostA, hostB]) [] subject
        (str "sig")).refs = none
      ∧ (Discover (collaborators unreachable noNamespace) (base [hostA, hostB]) [] subject
        (str "sig")).err = some (.Other (str "dial tcp a.example: connection refused"))
      ∧ attemptedHosts (Discover (collaborators unreachable noNamespace) (base [hostA, hostB])
        [] subject (str "sig")) = [hostA, hostB] :=
  Discover_all_fail (collaborators unreachable noNamespace) (base [hostA, hostB]) [] scopedCtx
    subject (str "sig") hostA [hostB] (.Other (str "dial tcp a.example: connection refused"))
    rfl (by decide) rfl
    (by
      intro h hh
      simp only [base, List.mem_cons, List.mem_singleton, List.not_mem_nil, or_false] at hh
      rcases hh with hh | hh <;> subst hh <;> exact ⟨_, _, rfl, rfl⟩)
    ⟨_, rfl, by decide⟩

/-- C4: when no configured host declares the discover capability, `Discover`
returns no artifacts and the not-found error wrapped with "no discover hosts",
sends no request and builds no scope context. -/
theorem Discover_no_eligible_hosts (c : Collaborators) (r : dockerBase) (ctx : Context)
    (desc : Descriptor) (artifactType : GoString)
    (hempty : filterHosts r HostCapabilityDiscover = []) :
    (Discover c r ctx desc artifactType).refs = none
      ∧ (Discover c r ctx desc artifactType).err
          = some (GoError.Wrap GoError.ErrNotFound (str "no discover hosts"))
      ∧ attemptedHosts (Discover c r ctx desc artifactType) = []
      ∧ scopesBuilt (Discover c r ctx desc artifactType) = 0 := by
  simp [Discover, hempty, attemptedHosts, sentHosts, scopesBuilt]

/-- C4 (witness): only a mirror without the discover capability is
configured. -/
theorem Discover_no_eligible_hosts_witness :
    (Discover (collaborators secondAnswers noNamespace) (base [mirror]) [] subject
        (str "sig")).refs = none
      ∧ (Discover (collaborators secondAnswers noNamespace) (base [mirror]) [] subject
        (str "sig")).err = some (GoError.Wrap GoError.ErrNotFound (str "no discover hosts"))
      ∧ attemptedHosts (Discover (collaborators secondAnswers noNamespace) (base [mirror]) []
        subject (str "sig")) = []
      ∧ scopesBuilt (Discover (collaborators secondAnswers noNamespace) (base [mirror]) []
        subject (str "sig")) = 0 :=
  Discover_no_eligible_hosts (collaborators secondAnswers noNamespace) (base [mirror]) []
    subject (str "sig") (by decide)

/-- C8: when the namespace annotation of the request for host `h` fails with
`err`, `Discover` returns `err` and no artifacts at once: no request is sent
to `h` or to any later host, also when earlier hosts had failed and a first
error was recorded. -/
theorem Discover_annotation_failure (c : Collaborators) (r : dockerBase) (ctx ctx' : Context)
    (desc : Descriptor) (artifactType : GoString) (pre post : List RegistryHost)
    (h : RegistryHost) (err : GoError)
    (hhosts : r.hosts = pre ++ h :: post)
    (heligible : filterHosts r HostCapabilityDiscover ≠ [])
    (hscope : c.ContextWithRepositoryScope (c.WithLogger ctx desc.Digest) r.refspec false
      = .ok ctx')
    (hpre : ∀ h' ∈ pre, ∃ e, AttemptFails c r ctx' desc (discoverQuery artifactType) h' e)
    (hann : annotated c r desc (discoverQuery artifactType) h = .error err) :
    (Discover c r ctx desc artifactType).refs = none
      ∧ (Discover c r ctx desc artifactType).err = some err
      ∧ attemptedHosts (Discover c r ctx desc artifactType) = pre := by
  obtain ⟨errs, herrs⟩ := forall₂_of_forall_fail c r ctx' desc _ pre hpre
  obtain ⟨evs, hevs, hrun⟩ := tryHosts_failing_hosts c r ctx' desc _ pre errs herrs
    (h :: post) none [Event.scope r.refspec]
  rw [Discover_eq_tryHosts c r ctx ctx' desc artifactType heligible hscope, hhosts, hrun,
    tryHosts_cons_unannotated c r ctx' desc _ _ h post _ err hann]
  refine ⟨rfl, rfl, ?_⟩
  simp only [attemptedHosts, sentHosts_append, hevs]
  simp [sentHosts]

/-- C8 (witness): `a.example` is unreachable, then the annotation for
`b.example` fails; `c.example` is never asked. -/
theorem Discover_annotation_failure_witness :
    (Discover (collaborators unreachable badNamespace) (base [hostA, hostB, hostC]) []
        subject (str "sig")).refs = none
      ∧ (Discover (collaborators unreachable badNamespace) (base [hostA, hostB, hostC]) []
        subject (str "sig")).err = some (.Other (str "invalid URL escape"))
      ∧ attemptedHosts (Discover (collaborators unreachable badNamespace)
        (base [hostA, hostB, hostC]) [] subject (str "sig")) = [hostA] :=
  Discover_annotation_failure (collaborators unreachable badNamespace)
    (base [hostA, hostB, hostC]) [] scopedCtx subject (str "sig") [hostA] [hostC] hostB
    (.Other (str "invalid URL escape")) rfl (by decide) rfl
    (by
      intro h' hh'
      rw [List.mem_singleton] at hh'
      subst hh'
      exact ⟨_, _, rfl, rfl⟩)
    rfl

/-- C5 (counterexample): `a.example` answers 500, then the transport fails the
attempt on `b.example` with `context.Canceled`; `Discover` still goes on to
`c.example`, and the error it returns is the one of `a.example`, not the
cancellation. -/
theorem Discover_cancellation_not_terminal :
    (collaborators cancelledAfterFirst noNamespace).doWithRetries scopedCtx requestB
        = .error GoError.Canceled
      ∧ attemptedHosts (Discover (collaborators cancelledAfterFirst noNamespace)
          (base [hostA, hostB, hostC]) [] subject (str "sig")) = [hostA, hostB, hostC]
      ∧ (Discover (collaborators cancelledAfterFirst noNamespace)
          (base [hostA, hostB, hostC]) [] subject (str "sig")).err ≠ some GoError.Canceled := by
  refine ⟨rfl, by decide, by decide⟩

/-- C5 (amended): when the transport fails the attempt on host `h` with `err`
(in particular `context.Canceled` or `context.DeadlineExceeded`) after the
earlier hosts failed, `Discover` treats it as any failed attempt. If a host
`n` follows, `n` is attempted next. If `h` is the last host, the call returns
no artifacts and the first recorded error: `err` when `h` is the only host,
the error of the first host otherwise. -/
theorem Discover_transport_failure_continues (c : Collaborators) (r : dockerBase)
    (ctx ctx' : Context) (desc : Descriptor) (artifactType : GoString)
    (pre post : List RegistryHost) (h : RegistryHost) (req : request) (err : GoError)
    (hhosts : r.hosts = pre ++ h :: post)
    (heligible : filterHosts r HostCapabilityDiscover ≠ [])
    (hscope : c.ContextWithRepositoryScope (c.WithLogger ctx desc.Digest) r.refspec false
      = .ok ctx')
    (hpre : ∀ h' ∈ pre, ∃ e, AttemptFails c r ctx' desc (discoverQuery artifactType) h' e)
    (hreq : annotated c r desc (discoverQuery artifactType) h = .ok req)
    (hcancel : c.doWithRetries ctx' req = .error err) :
    (∀ n post' reqn, post = n :: post' →
        annotated c r desc (discoverQuery artifactType) n = .ok reqn →
        pre ++ [h, n] <+: attemptedHosts (Discover c r ctx desc artifactType))
      ∧ (post = [] →
          (Discover c r ctx desc artifactType).refs = none
            ∧ attemptedHosts (Discover c r ctx desc artifactType) = pre ++ [h]
            ∧ (pre = [] → (Discover c r ctx desc artifactType).err = some err)
            ∧ (∀ h₁ pre' e₁, pre = h₁ :: pre' →
                AttemptFails c r ctx' desc (discoverQuery artifactType) h₁ e₁ →
                (Discover c r ctx desc artifactType).err = some e₁)) := by
  obtain ⟨errs, herrs⟩ := forall₂_of_forall_fail c r ctx' desc _ pre hpre
  obtain ⟨evs, hevs, hrun⟩ := tryHosts_failing_hosts c r ctx' desc _ pre errs herrs
    (h :: post) none [Event.scope r.refspec]
  have hd : (discover c ctx' req).2 = some err := by simp [discover, hcancel]
  rw [tryHosts_cons_fail c r ctx' desc _ _ h post _ req err hreq hd] at hrun
  rw [Discover_eq_tryHosts c r ctx ctx' desc artifactType heligible hscope, hhosts, hrun]
  constructor
  · intro n post' reqn hpost hn
    subst hpost
    have hsent : sentHosts ([Event.scope r.refspec] ++ evs ++ [Event.send h req]
        ++ [Event.send n reqn]) = pre ++ [h, n] := by
      simp only [sentHosts_append, hevs]
      simp [sentHosts]
    rw [← hsent]
    apply List.IsPrefix.filterMap
    rcases hdn : discover c ctx' reqn with ⟨refs, _ | e⟩
    · rw [tryHosts_cons_ok c r ctx' desc _ _ n post' _ reqn refs hn hdn]
    · rw [tryHosts_cons_fail c r ctx' desc _ _ n post' _ reqn e hn (by rw [hdn])]
      exact tryHosts_events_grow c r ctx' desc _ post' _ _
  · intro hpost
    subst hpost
    refine ⟨rfl, ?_, ?_, ?_⟩
    · simp only [tryHosts, attemptedHosts, sentHosts_append, hevs]
      simp [sentHosts]
    · intro hnil
      subst hnil
      cases herrs
      rfl
    · intro h₁ pre' e₁ hcons hfirst
      subst hcons
      cases herrs with
      | cons he _ =>
        have := AttemptFails_unique c r ctx' desc _ h₁ _ _ he hfirst
        subst this
        rfl

/-- C5 (amended, witness): the context is cancelled during the attempt on
`b.example`, after `a.example` answered 500; `c.example` follows. -/
theorem Discover_transport_failure_continues_witness :
    [hostA] ++ [hostB, hostC] <+: attemptedHosts (Discover
      (collaborators cancelledAfterFirst noNamespace) (base [hostA, hostB, hostC]) []
      subject (str "sig")) :=
  (Discover_transport_failure_continues (collaborators cancelledAfterFirst noNamespace)
    (base [hostA, hostB, hostC]) [] scopedCtx subject (str "sig") [hostA] [hostC] hostB
    requestB GoError.Canceled rfl (by decide) rfl
    (by
      intro h' hh'
      rw [List.mem_singleton] at hh'
      subst hh'
      exact ⟨_, _, rfl, rfl⟩)
    rfl rfl).1 hostC [] requestC rfl rfl

/-! ## Properties of `discover` -/

/-- C6 (counterexample): the body `\x7b"references": []\x7d trailing garbage` is
not valid JSON, and `discover` returns the empty list and no error on the
status-200 response that carries it. -/
theorem discover_trailing_garbage :
    Valid trailingBody = false
      ∧ readValue trailingBody = .ok (emptyBody, str " trailing garbage")
      ∧ discover (jsonCollaborators trailingGarbage) scopedCtx requestA = (some [], none) := by
  refine ⟨by decide, rfl, by decide⟩

/-- C6 (amended): on a status-200 response decoded by `Decode`. When the body
starts with a JSON value, the one `readValue` reads, that unmarshals without
error to a `references` array `entries`, `discover` returns no error and a list
of the same length whose element `i` has the digest and the manifest of entry
`i`. Of the bytes after that value at most the first is looked at, so what
follows it can be anything. When the body does not start with a complete JSON
value, `discover` returns the error of `readValue` and no list, and the body
is not valid JSON; when the value read fails to unmarshal, `discover` returns
that error and no list. -/
theorem discover_status_ok_first_value (c : Collaborators) (ctx : Context) (req : request)
    (resp : Response) (unmarshal : GoString → result × Option GoError)
    (hsend : c.doWithRetries ctx req = .ok resp)
    (hstatus : resp.StatusCode = StatusOK)
    (hdecode : c.decodeResult = Decode unmarshal) :
    (∀ (value rest : GoString) (entries : List reference),
        readValue resp.Body = .ok (value, rest) →
        unmarshal value = ({ References := some entries }, none) →
        ∃ artifacts : List DiscoveredArtifact,
          discover c ctx req = (some artifacts, none)
            ∧ artifacts.length = entries.length
            ∧ ∀ (i : Nat) (hi : i < entries.length) (ha : i < artifacts.length),
                (artifacts.get ⟨i, ha⟩).Digest = (entries.get ⟨i, hi⟩).Digest
                  ∧ (artifacts.get ⟨i, ha⟩).Artifact = (entries.get ⟨i, hi⟩).Manifest)
      ∧ (∀ (value : GoString) (b : Byte) (rest rest' : GoString),
          readValue resp.Body = .ok (value, b :: rest) →
          resp.Body = value ++ b :: rest
            ∧ readValue (value ++ b :: rest') = .ok (value, b :: rest'))
      ∧ (∀ err : GoError, readValue resp.Body = .error err →
          discover c ctx req = (none, some err) ∧ Valid resp.Body = false)
      ∧ (∀ (value rest : GoString) (res : result) (err : GoError),
          readValue resp.Body = .ok (value, rest) →
          unmarshal value = (res, some err) →
          discover c ctx req = (none, some err)) := by
  refine ⟨?_, ?_, ?_, ?_⟩
  · intro value rest entries hread hvalue
    refine ⟨entries.map fun a => { Digest := a.Digest, Artifact := a.Manifest }, ?_, ?_, ?_⟩
    · simp [discover, hsend, hstatus, hdecode, Decode, hread, hvalue, convert_eq_map]
    · simp
    · intro i hi ha
      simp
  · intro value b rest rest' hread
    obtain ⟨read, hvalue, hbody⟩ := readValueLoop_split _ _ _ _ _ hread
    rw [List.nil_append] at hvalue
    subst hvalue
    refine ⟨hbody, ?_⟩
    rw [hbody] at hread
    exact readValueLoop_rest value scanner.reset [] value b rest rest' hread
  · intro err hread
    refine ⟨by simp [discover, hsend, hstatus, hdecode, Decode, hread], ?_⟩
    cases hvalid : Valid resp.Body
    · rfl
    · obtain ⟨value, rest, hok⟩ := readValue_of_Valid resp.Body hvalid
      rw [hok] at hread
      cases hread
  · intro value rest res err hread hvalue
    simp [discover, hsend, hstatus, hdecode, Decode, hread, hvalue]

/-- C6 (amended, witness): the host answers 200 with one reference followed by
bytes that are not JSON. -/
theorem discover_status_ok_first_value_witness :
    ∃ artifacts : List DiscoveredArtifact,
      discover (jsonCollaborators oneThenGarbage) scopedCtx requestB = (some artifacts, none)
        ∧ artifacts.length = [({ Digest := str "sha256:bb", Manifest := sig } : reference)].length
        ∧ ∀ (i : Nat)
            (hi : i < [({ Digest := str "sha256:bb", Manifest := sig } : reference)].length)
            (ha : i < artifacts.length),
            (artifacts.get ⟨i, ha⟩).Digest
                = ([({ Digest := str "sha256:bb", Manifest := sig } : reference)].get ⟨i, hi⟩).Digest
              ∧ (artifacts.get ⟨i, ha⟩).Artifact
                = ([({ Digest := str "sha256:bb", Manifest := sig } : reference)].get
                    ⟨i, hi⟩).Manifest :=
  (discover_status_ok_first_value (jsonCollaborators oneThenGarbage) scopedCtx requestB
    { StatusCode := 200, Status := str "200 OK", Body := oneTrailingBody } unmarshalResult
    rfl rfl rfl).1 oneBody (str " <html>") [{ Digest := str "sha256:bb", Manifest := sig }]
    rfl rfl

/-- C7: on a response whose status is not 200, `discover` returns no artifacts
and an error. When the body decodes without error to a registry error list
with at least one entry, the message is made of the request's string form,
the status text and the joined server messages, and contains each of them;
when decoding fails or the list is empty, the message is made of the request's
string form and the status text only. -/
theorem discover_status_not_ok (c : Collaborators) (ctx : Context) (req : request)
    (resp : Response)
    (hsend : c.doWithRetries ctx req = .ok resp)
    (hstatus : resp.StatusCode ≠ StatusOK) :
    (∀ errs : Errors, c.decodeErrors resp.Body = (errs, none) → 1 ≤ errs.length →
        ∃ msg, discover c ctx req = (none, some (GoError.Errorf msg))
          ∧ msg = str "unexpected status code " ++ c.requestString req ++ str ": "
              ++ resp.Status ++ str " - Server message: " ++ c.errorsError errs
          ∧ c.requestString req <:+: msg
          ∧ resp.Status <:+: msg
          ∧ c.errorsError errs <:+: msg)
      ∧ (∀ (errs : Errors) (err : Option GoError), c.decodeErrors resp.Body = (errs, err) →
          err ≠ none ∨ errs.length = 0 →
          discover c ctx req
            = (none, some (GoError.Errorf (str "unexpected status code "
                ++ c.requestString req ++ str ": " ++ resp.Status)))) := by
  constructor
  · intro errs hbody hlen
    refine ⟨_, ?_, rfl, ?_, ?_, ?_⟩
    · have hlen' : ¬ errs.length < 1 := by omega
      simp [discover, hsend, hstatus, hbody, hlen']
    · exact ⟨str "unexpected status code ",
        str ": " ++ resp.Status ++ str " - Server message: " ++ c.errorsError errs,
        by simp [List.append_assoc]⟩
    · exact ⟨str "unexpected status code " ++ c.requestString req ++ str ": ",
        str " - Server message: " ++ c.errorsError errs, by simp [List.append_assoc]⟩
    · exact List.suffix_append _ _ |>.isInfix
  · intro errs err hbody hbad
    have hbad' : err ≠ none ∨ errs.length < 1 := by
      rcases hbad with hbad | hbad
      · exact Or.inl hbad
      · exact Or.inr (by omega)
    simp only [discover, hsend, hstatus, hbody, ne_eq, not_false_eq_true, if_true]
    rw [if_pos hbad']

/-- C7 (witness): `a.example` answers 500 with a body that is not JSON; the
error names the request and the status text `500 Internal Server Error`. -/
theorem discover_status_not_ok_witness :
    discover (collaborators cancelledAfterFirst noNamespace) scopedCtx requestA
      = (none, some (GoError.Errorf (str "unexpected status code "
          ++ (collaborators cancelledAfterFirst noNamespace).requestString requestA
          ++ str ": " ++ str "500 Internal Server Error"))) :=
  (discover_status_not_ok (collaborators cancelledAfterFirst noNamespace) scopedCtx requestA
    { StatusCode := 500, Status := str "500 Internal Server Error", Body := str "oops" }
    rfl (by decide)).2 [] (some (.Other (str "invalid character"))) rfl (Or.inl (by decide))

/-- C9: on a status-200 response whose body decodes without error to a
`references` array of length 0, `discover` returns no error and the empty,
non-nil list; and `Discover`, when the host of that response is the first to
succeed, returns that empty, non-nil list and no error. -/
theorem discover_empty_references (c : Collaborators) (r : dockerBase) (ctx ctx' : Context)
    (desc : Descriptor) (artifactType : GoString) (pre post : List RegistryHost)
    (h : RegistryHost) (req : request) (resp : Response) (res : result)
    (hhosts : r.hosts = pre ++ h :: post)
    (heligible : filterHosts r HostCapabilityDiscover ≠ [])
    (hscope : c.ContextWithRepositoryScope (c.WithLogger ctx desc.Digest) r.refspec false
      = .ok ctx')
    (hpre : ∀ h' ∈ pre, ∃ e, AttemptFails c r ctx' desc (discoverQuery artifactType) h' e)
    (hreq : annotated c r desc (discoverQuery artifactType) h = .ok req)
    (hsend : c.doWithRetries ctx' req = .ok resp)
    (hstatus : resp.StatusCode = StatusOK)
    (hbody : c.decodeResult resp.Body = (res, none))
    (hlen : len res.References = 0) :
    discover c ctx' req = (some [], none)
      ∧ (Discover c r ctx desc artifactType).refs = some []
      ∧ (Discover c r ctx desc artifactType).refs ≠ none
      ∧ (Discover c r ctx desc artifactType).err = none := by
  have hd : discover c ctx' req = (some [], none) := by
    have hnil : res.References.getD [] = [] := by
      cases hres : res.References with
      | none => rfl
      | some xs =>
        rw [hres] at hlen
        simpa [len] using hlen
    simp [discover, hsend, hstatus, hbody, convert_eq_map, hnil]
  obtain ⟨errs, herrs⟩ := forall₂_of_forall_fail c r ctx' desc _ pre hpre
  obtain ⟨evs, _, hrun⟩ := tryHosts_failing_hosts c r ctx' desc _ pre errs herrs
    (h :: post) none [Event.scope r.refspec]
  rw [Discover_eq_tryHosts c r ctx ctx' desc artifactType heligible hscope, hhosts, hrun,
    tryHosts_cons_ok c r ctx' desc _ _ h post _ req (some []) hreq hd]
  exact ⟨hd, rfl, by simp, rfl⟩

/-- C9 (witness): the only host answers 200 with `\x7b"references": []\x7d`. -/
theorem discover_empty_references_witness :
    discover (collaborators noReferrers noNamespace) scopedCtx requestA = (some [], none)
      ∧ (Discover (collaborators noReferrers noNamespace) (base [hostA]) [] subject
          (str "sig")).refs = some []
      ∧ (Discover (collaborators noReferrers noNamespace) (base [hostA]) [] subject
          (str "sig")).refs ≠ none
      ∧ (Discover (collaborators noReferrers noNamespace) (base [hostA]) [] subject
          (str "sig")).err = none :=
  discover_empty_references (collaborators noReferrers noNamespace) (base [hostA]) [] scopedCtx
    subject (str "sig") [] [] hostA requestA
    { StatusCode := 200, Status := str "200 OK", Body := emptyBody }
    { References := some [] } rfl (by decide) rfl
    (by intro h' hh'; cases hh') rfl rfl rfl rfl rfl

/-! ## The request built for each host -/

/-- C10 (counterexample): for the filter `application/vnd.foo+json;q=1 bar` the
query is `?referenceType=application%2Fvnd.foo%2Bjson%3Bq%3D1+bar`: the space
is written `+`, not percent-encoded, so the query is not `?referenceType=`
plus the percent-encoded filter. -/
theorem discoverQuery_space_not_percent_encoded :
    discoverQuery reservedFilter
        = str "?referenceType=application%2Fvnd.foo%2Bjson%3Bq%3D1+bar"
      ∧ percentEncode reservedFilter = str "application%2Fvnd.foo%2Bjson%3Bq%3D1%20bar"
      ∧ discoverQuery reservedFilter ≠ str "?referenceType=" ++ percentEncode reservedFilter := by
  decide

/-- C10 (amended): every request `Discover` sends is the annotated form of the
request built for a configured host; the request built for a host has the
path made by the request constructor from the host, its base path extended by
`/_ext/oci-artifacts/v1-rc1`, and the segments `manifests`, the digest and
`referrers`, followed by `?referenceType=` and the form-encoded filter (every
byte that is not unreserved percent-encoded, except the space, written `+`);
the query is the same for every host, and one decoding pass gives the filter
back. -/
theorem Discover_request_query (c : Collaborators) (r : dockerBase) (ctx : Context)
    (desc : Descriptor) (artifactType : GoString) :
    (∀ h req, Event.send h req ∈ (Discover c r ctx desc artifactType).events →
        h ∈ r.hosts ∧
        c.addNamespace (buildRequest c r h desc (str "?referenceType=" ++ formEncode artifactType))
          r.refspec.Hostname = .ok req)
      ∧ (∀ h : RegistryHost,
          (buildRequest c r h desc (str "?referenceType=" ++ formEncode artifactType)).path
            = (c.newRequest r { h with Path := h.Path ++ str "/_ext/oci-artifacts/v1-rc1" }
                MethodGet [str "manifests", desc.Digest, str "referrers"]).path
              ++ str "?referenceType=" ++ formEncode artifactType)
      ∧ queryUnescape (formEncode artifactType) = some artifactType := by
  refine ⟨?_, ?_, queryUnescape_formEncode artifactType⟩
  · intro h req hmem
    rw [← discoverQuery_eq]
    unfold Discover at hmem
    dsimp only at hmem
    split at hmem
    · simp at hmem
    · split at hmem
      · simp at hmem
      · exact tryHosts_events_sound c r _ desc _ r.hosts r.hosts (fun _ hh => hh) none _
          (by intro h req hm; simp at hm) h req hmem
  · intro h
    simp [buildRequest, List.append_assoc]

end Docker
